import Mathlib

/-!
# SciChat front-end (`static/js/main.js`): a shallow embedding

The global variables of `main.js` (`currentConversationId`, `conversations`,
`papers`, `stats`) become one `State` record and every handler becomes a pure
function on it.  What a handler reads from its environment (`Math.random()`,
`new Date()`, the selected file, the answer of a `fetch`, what the HTML parser
makes of the markup that the program interpolates) is an explicit argument.
An `async` handler is cut at its `await`: the part before it and the
continuation after it are separate functions.  A call that can throw returns
the globals it left together with a flag.
-/

namespace SciChat

/-! ## JavaScript strings -/

/-- A JavaScript string, as its sequence of UTF-16 code units: `length`,
`substring` and `===` of the source all work on code units. -/
abbrev JSString := List Nat

/-- An ASCII string literal of the source, as a JavaScript string. -/
def js (s : String) : JSString := s.toList.map Char.toNat

/-- The code units that `String.prototype.trim` strips: ECMAScript WhiteSpace
and LineTerminator (all of them lie in the basic multilingual plane). -/
def isWhiteSpace (u : Nat) : Bool :=
  u = 0x09 || u = 0x0A || u = 0x0B || u = 0x0C || u = 0x0D || u = 0x20 || u = 0xA0 ||
  u = 0x1680 || (0x2000 ≤ u && u ≤ 0x200A) || u = 0x2028 || u = 0x2029 || u = 0x202F ||
  u = 0x205F || u = 0x3000 || u = 0xFEFF

/-- The method `trim()`: white space removed from both ends. -/
def trim (s : JSString) : JSString := (s.dropWhile isWhiteSpace).rdropWhile isWhiteSpace

/-! ## Data model -/

/-- One chat message: `{sender, text, timestamp}`.  The timestamp is the
millisecond count that `new Date().toISOString()` renders. -/
structure Message where
  sender : JSString
  text : JSString
  timestamp : Nat
deriving DecidableEq, Repr

/-- One entry of `conversations`: `{messages, created}`. -/
structure Conversation where
  messages : List Message
  created : Nat
deriving DecidableEq, Repr

/-- A paper record as the backend returns it. -/
structure Paper where
  id : JSString
  title : JSString
  authors : JSString
  organizations : JSString
  emails : JSString
deriving DecidableEq, Repr

/-- The global `stats`; JavaScript numbers, which `--` can take below zero. -/
structure Stats where
  paperCount : Int
  conversationCount : Int
  questionCount : Int
deriving DecidableEq, Repr

/-- The object `conversations`: its own string-keyed properties in insertion
order.  The keys the program uses are results of `generateUUID`, never array
indices and never names of properties of `Object.prototype`. -/
abbrev Store := List (JSString × Conversation)

/-- The global variables of `main.js`. -/
structure State where
  currentConversationId : Option JSString
  conversations : Store
  papers : List Paper
  stats : Stats
deriving DecidableEq, Repr

/-- The values of the globals when the script has loaded. -/
def initialState : State :=
  { currentConversationId := none, conversations := [], papers := [],
    stats := { paperCount := 0, conversationCount := 0, questionCount := 0 } }

namespace Store

/-- The keys of the object, `Object.keys(conversations)`. -/
def keys (st : Store) : List JSString := st.map Prod.fst

/-- Property read `conversations[id]`; `none` is `undefined`. -/
def get (st : Store) (id : JSString) : Option Conversation :=
  match st with
  | [] => none
  | (k, v) :: rest => if k = id then some v else get rest id

/-- Property write `conversations[id] = c`: an existing key keeps its place,
a new key goes last. -/
def set (st : Store) (id : JSString) (c : Conversation) : Store :=
  match st with
  | [] => [(id, c)]
  | (k, v) :: rest => if k = id then (k, c) :: rest else (k, v) :: set rest id c

/-- The statement `delete conversations[id]`. -/
def delete (st : Store) (id : JSString) : Store :=
  st.filter (fun e => decide (e.1 ≠ id))

end Store

/-! ## `generateUUID` -/

/-- One result of `Math.random()`: the number `num / den`. -/
structure Draw where
  num : Nat
  den : Nat
deriving DecidableEq, Repr

/-- The expression `Math.random() * 16 | 0` for a draw in `[0, 1)`: the product
is below 16, so `| 0` truncates it to an integer. -/
def randomNibble (d : Draw) : Nat := 16 * d.num / d.den

/-- The call `v.toString(16)` for a non-negative integer. -/
def toString16 (v : Nat) : JSString := (Nat.toDigits 16 v).map Char.toNat

/-- The callback of `replace` in `generateUUID`, for the matched code unit `c`. -/
def uuidReplacer (c : Nat) (d : Draw) : JSString :=
  let r := randomNibble d
  let v := if c = 'x'.toNat then r else ((r &&& 0x3) ||| 0x8)
  toString16 v

/-- The call `template.replace(/[xy]/g, callback)`: the code units are scanned
left to right; the `k`-th match consumes the `k`-th draw. -/
def replaceXY (rnd : Nat → Draw) : JSString → Nat → JSString
  | [], _ => []
  | c :: cs, k =>
    if c = 'x'.toNat ∨ c = 'y'.toNat then uuidReplacer c (rnd k) ++ replaceXY rnd cs (k + 1)
    else c :: replaceXY rnd cs k

/-- The template string of `generateUUID`. -/
def uuidTemplate : JSString := js "xxxxxxxx-xxxx-4xxx-yxxx-xxxxxxxxxxxx"

/-- The function `generateUUID`; `rnd k` is the `k`-th result of `Math.random()`
during the call. -/
def generateUUID (rnd : Nat → Draw) : JSString := replaceXY rnd uuidTemplate 0

/-- A lowercase hexadecimal digit, as a code unit. -/
def isLowerHex (u : Nat) : Prop :=
  ('0'.toNat ≤ u ∧ u ≤ '9'.toNat) ∨ ('a'.toNat ≤ u ∧ u ≤ 'f'.toNat)

instance (u : Nat) : Decidable (isLowerHex u) := by
  unfold isLowerHex; infer_instance

/-! ## Chat functions -/

/-- The guard `currentConversationId && conversations[currentConversationId]`
of `appendMessage`: the identifier is neither `null` nor the empty string and
the store has an entry for it.  The result is that entry. -/
def currentConversation (s : State) : Option (JSString × Conversation) :=
  match s.currentConversationId with
  | none => none
  | some id => if id = [] then none else (s.conversations.get id).map (fun c => (id, c))

/-- The statement `conversations[currentConversationId].messages.push(m)`
under its guard. -/
def pushMessage (s : State) (m : Message) : State :=
  match currentConversation s with
  | none => s
  | some (id, c) =>
    { s with conversations := s.conversations.set id { c with messages := c.messages ++ [m] } }

/-- The statement `stats.questionCount++`. -/
def countQuestion (s : State) : State :=
  { s with stats := { s.stats with questionCount := s.stats.questionCount + 1 } }

/-- The function `appendMessage(sender, text)`; `now` is the value of
`new Date()`.  Only what it does to the globals is kept: the message element
it adds to the page is not part of `State`. -/
def appendMessage (s : State) (sender text : JSString) (now : Nat) : State :=
  let s1 :=
    if sender = js "user" then pushMessage s { sender := js "user", text := text, timestamp := now }
    else pushMessage s { sender := js "bot", text := text, timestamp := now }
  if sender = js "user" then countQuestion s1 else s1

/-- The greeting of `createNewConversation`. -/
def greeting : JSString := js "Hello! How can I help you with your scientific papers today?"

/-! ## Conversation titles -/

/-- The loop of `updateConversationsList` that computes `title`: the variable
starts as `'Conversation'` and the first `'user'` message sets it and breaks. -/
def titleLoop : List Message → JSString
  | [] => js "Conversation"
  | m :: ms =>
    if m.sender = js "user" then
      m.text.take 30 ++ (if m.text.length > 30 then js "..." else js "")
    else titleLoop ms

/-- The title that `updateConversationsList` shows for a conversation. -/
def conversationTitle (c : Conversation) : JSString := titleLoop c.messages

/-- What `updateConversationsList` renders, one item per entry of the store in
key order: the identifier, the title, and whether the item is marked active. -/
def updateConversationsList (s : State) : List (JSString × JSString × Bool) :=
  s.conversations.map (fun e =>
    (e.1, conversationTitle e.2, decide (some e.1 = s.currentConversationId)))

/-- The title as the specification words it: the first message of sender
`'user'`, if there is one, gives its first 30 code units, with `'...'` after
them exactly when the text is longer; otherwise the placeholder. -/
def specTitle (c : Conversation) : JSString :=
  match c.messages.find? (fun m => decide (m.sender = js "user")) with
  | some m => if m.text.length > 30 then m.text.take 30 ++ js "..." else m.text.take 30
  | none => js "Conversation"

/-! ## The browser -/

/-- The browser, as far as the program depends on it beyond `Math.random` and
the clock.  The program builds markup by interpolating titles and paper fields
unescaped into `innerHTML` and then looks its buttons up with
`querySelector(...).addEventListener`: when the parser has made no such
button of the markup, the lookup is `null` and the call throws a `TypeError`
with the message `nullMessage`. -/
structure Browser where
  itemHasDeleteButton : JSString → Bool
  rowHasButtons : Paper → Bool
  nullMessage : JSString

/-- Whether `updateConversationsList()` throws on this store: it builds the
items in key order and throws at the first title whose item has no element of
class `delete-conversation-btn`. -/
def conversationsListThrows (browser : Browser) (st : Store) : Bool :=
  st.any (fun e => !browser.itemHasDeleteButton (conversationTitle e.2))

/-- Whether `updatePapersTable()` throws on this list: it builds the rows in
order and throws at the first paper whose row lacks its view or chat button. -/
def papersTableThrows (browser : Browser) (papers : List Paper) : Bool :=
  papers.any (fun p => !browser.rowHasButtons p)

/-- How a call ended: the globals it left, and whether it threw (for a handler
with a `try`: whether its `catch` block ran). -/
structure Completion where
  state : State
  threw : Bool
deriving DecidableEq, Repr

/-! ## Creating, loading and deleting conversations -/

/-- The globals of `createNewConversation` when it reaches
`updateConversationsList()`: the new identifier is current, its entry is
empty, and `stats.conversationCount` is incremented. -/
def createdState (s : State) (rnd : Nat → Draw) (created : Nat) : State :=
  let id := generateUUID rnd
  let s1 : State :=
    { s with
      currentConversationId := some id
      conversations := s.conversations.set id { messages := [], created := created } }
  { s1 with stats := { s1.stats with conversationCount := s1.stats.conversationCount + 1 } }

/-- The function `createNewConversation`; `rnd` feeds `generateUUID`, `created`
and `greeted` are the two values of `new Date()`.  When
`updateConversationsList()` throws, the greeting is not appended. -/
def createNewConversation (browser : Browser) (s : State) (rnd : Nat → Draw)
    (created greeted : Nat) : Completion :=
  let s2 := createdState s rnd created
  if conversationsListThrows browser s2.conversations then { state := s2, threw := true }
  else { state := appendMessage s2 (js "bot") greeting greeted, threw := false }

/-- The loop `conversations[id].messages.forEach(...)` of `loadConversation`:
`n` elements are still to be visited, the next index is `k`.  The number of
visits is fixed when the loop starts; an element is read when it is visited. -/
def loadLoop (id : JSString) (clock : Nat → Nat) : Nat → Nat → State → State
  | 0, _, s => s
  | n + 1, k, s =>
    match (s.conversations.get id).bind (fun c => c.messages[k]?) with
    | some m => loadLoop id clock n (k + 1) (appendMessage s m.sender m.text (clock k))
    | none => loadLoop id clock n (k + 1) s

/-- The function `loadConversation(id)`; `clock k` is the value of `new Date()`
in the `k`-th call of `appendMessage`. -/
def loadConversation (s : State) (id : JSString) (clock : Nat → Nat) : State :=
  match s.conversations.get id with
  | none => s
  | some c => loadLoop id clock c.messages.length 0 s

/-- The click handler of a conversation entry (not on its delete button):
`currentConversationId = id; loadConversation(id)`. -/
def switchConversation (s : State) (id : JSString) (clock : Nat → Nat) : State :=
  loadConversation { s with currentConversationId := some id } id clock

/-- The delete handler of the entry `id` after its `await fetch(...)` has
resolved, a `try` block: the local removal, `updateConversationsList()`, the
replacement of a deleted current conversation, and the decrement of the
counter.  A throw of the list or of the replacement ends the block there,
before the decrement. -/
def deleteConversation (browser : Browser) (s : State) (id : JSString) (rnd : Nat → Draw)
    (created greeted : Nat) : Completion :=
  let s1 : State := { s with conversations := s.conversations.delete id }
  if conversationsListThrows browser s1.conversations then { state := s1, threw := true }
  else
    let r : Completion :=
      if s1.currentConversationId = some id then createNewConversation browser s1 rnd created greeted
      else { state := s1, threw := false }
    if r.threw then r
    else
      { state := { r.state with
          stats := { r.state.stats with
            conversationCount := r.state.stats.conversationCount - 1 } }
        threw := false }

/-! ## Runs of the store-mutating operations -/

/-- One store-mutating operation together with what it reads from its
environment. -/
inductive Op where
  | create (rnd : Nat → Draw) (created greeted : Nat)
  | append (sender text : JSString) (now : Nat)
  | load (id : JSString) (clock : Nat → Nat)
  | delete (id : JSString) (rnd : Nat → Draw) (created greeted : Nat)

/-- The effect of one operation on the globals, whether or not it threw. -/
def step (browser : Browser) (s : State) : Op → State
  | .create rnd created greeted => (createNewConversation browser s rnd created greeted).state
  | .append sender text now => appendMessage s sender text now
  | .load id clock => loadConversation s id clock
  | .delete id rnd created greeted => (deleteConversation browser s id rnd created greeted).state

/-- The effect of a sequence of operations. -/
def run (browser : Browser) (s : State) (ops : List Op) : State := ops.foldl (step browser) s

/-- The states reached from the initial state by operations that satisfy
`guard` in the state where they are applied. -/
inductive Reachable (browser : Browser) (guard : State → Op → Prop) : State → Prop where
  | init : Reachable browser guard initialState
  | next {s : State} (op : Op) :
      Reachable browser guard s → guard s op → Reachable browser guard (step browser s op)

/-- The operations of the chat: any creation, a message of either sender, any
replay, and the deletion of a conversation that is in the store. -/
def chatOp (s : State) : Op → Prop
  | .create _ _ _ => True
  | .append sender _ _ => sender = js "user" ∨ sender = js "bot"
  | .load _ _ => True
  | .delete id _ _ _ => id ∈ s.conversations.keys

/-- Operations that lose no stored question: a creation whose identifier is
not yet a key, and a message or a replay while the current conversation is in
the store.  No deletion. -/
def keepsQuestions (s : State) : Op → Prop
  | .create rnd _ _ => generateUUID rnd ∉ s.conversations.keys
  | .append _ _ _ => (currentConversation s).isSome
  | .load _ _ => (currentConversation s).isSome
  | .delete _ _ _ _ => False

/-- Operations with collision-free identifiers and completed deletions: a
creation whose identifier is not yet a key, and the deletion of a conversation
that is in the store, whose handler runs its `try` block to the end and whose
replacement (made when the deleted one was current) has an identifier that is
not a key of the remaining store. -/
def freshIds (browser : Browser) (s : State) : Op → Prop
  | .create rnd _ _ => generateUUID rnd ∉ s.conversations.keys
  | .append _ _ _ => True
  | .load _ _ => True
  | .delete id rnd created greeted =>
    id ∈ s.conversations.keys ∧
      (s.currentConversationId = some id → generateUUID rnd ∉ (s.conversations.delete id).keys) ∧
      (deleteConversation browser s id rnd created greeted).threw = false

/-- An operation that does not generate the identifier `id`. -/
def avoids (id : JSString) : Op → Prop
  | .create rnd _ _ => generateUUID rnd ≠ id
  | .append _ _ _ => True
  | .load _ _ => True
  | .delete _ rnd _ _ => generateUUID rnd ≠ id

instance (s : State) (op : Op) : Decidable (chatOp s op) := by
  cases op <;> unfold chatOp <;> infer_instance

instance (s : State) (op : Op) : Decidable (keepsQuestions s op) := by
  cases op <;> unfold keepsQuestions <;> infer_instance

instance (browser : Browser) (s : State) (op : Op) : Decidable (freshIds browser s op) := by
  cases op <;> unfold freshIds <;> infer_instance

instance (id : JSString) (op : Op) : Decidable (avoids id op) := by
  cases op <;> unfold avoids <;> infer_instance

/-- The number of messages of a list whose sender is `'user'`. -/
def userCount (ms : List Message) : Nat :=
  (ms.filter (fun m => decide (m.sender = js "user"))).length

/-- The number of `'user'` messages in all conversations of the store. -/
def userTotal (st : Store) : Nat := (st.map (fun e => userCount e.2.messages)).sum

/-! ## Recent papers -/

/-- The method `Array.prototype.sort(compare)` for a consistent comparison
function: the stable arrangement in which `x` precedes `y` when
`compare x y ≤ 0` (insertion from the right keeps equal elements in their
original order). -/
def sort {α : Type} (compare : α → α → Int) (l : List α) : List α :=
  l.insertionSort (fun x y => compare x y ≤ 0)

/-- The expression `[...papers].sort((a, b) => b.id.localeCompare(a.id)).slice(0, 5)`
of `updateRecentPapersList`.  The collation `localeCompare` belongs to the
JavaScript engine and its locale and is a parameter. -/
def recentPapers (localeCompare : JSString → JSString → Int) (papers : List Paper) :
    List Paper :=
  (sort (fun a b => localeCompare b.id a.id) papers).take 5

/-- The papers that `updateRecentPapersList` renders: none for an empty list
(the placeholder is shown instead), else the selection. -/
def updateRecentPapersList (localeCompare : JSString → JSString → Int)
    (papers : List Paper) : List Paper :=
  if papers.length = 0 then [] else recentPapers localeCompare papers

/-- Comparison of two strings code unit by code unit, a collation that
`localeCompare` may implement: negative, zero or positive. -/
def codeUnitCompare : JSString → JSString → Int
  | [], [] => 0
  | [], _ :: _ => -1
  | _ :: _, [] => 1
  | a :: as, b :: bs => if a < b then -1 else if b < a then 1 else codeUnitCompare as bs

/-- The upper-case ASCII letters. -/
def isUpper (u : Nat) : Bool := decide ('A'.toNat ≤ u ∧ u ≤ 'Z'.toNat)

/-- An ASCII letter without its case. -/
def foldCase (u : Nat) : Nat := if isUpper u then u + 32 else u

/-- A collation of the kind `localeCompare` has in a browser (the default
collation on strings of ASCII letters): the strings are first compared letter
by letter without regard to case, and, when that finds no difference, by case,
lower case first.  So `a` sorts before `B`, and `b` before `B`. -/
def collationCompare (a b : JSString) : Int :=
  if codeUnitCompare (a.map foldCase) (b.map foldCase) ≠ 0 then
    codeUnitCompare (a.map foldCase) (b.map foldCase)
  else
    codeUnitCompare (a.map (fun u => if isUpper u then 1 else 0))
      (b.map (fun u => if isUpper u then 1 else 0))

/-! ## `sendMessage` -/

/-- The JSON body that `askQuestion` posts to `/ask`. -/
structure AskRequest where
  question : JSString
  conversation_id : Option JSString
  metadata_only : Bool
deriving DecidableEq, Repr

/-- What `sendMessage` has done when it reaches its `await` or returns early:
the globals, the value of the chat input, and the request sent to `/ask`, if
one was sent. -/
structure SendResult where
  state : State
  chatInput : JSString
  request : Option AskRequest
deriving DecidableEq, Repr

/-- The function `sendMessage` up to `await askQuestion(...)`; `chatInput` is
`chatInputEl.value`. -/
def sendMessage (s : State) (chatInput : JSString) (now : Nat) : SendResult :=
  let question := trim chatInput
  if question = [] then { state := s, chatInput := chatInput, request := none }
  else
    let s1 := appendMessage s (js "user") question now
    { state := s1, chatInput := []
      request := some { question := question, conversation_id := s1.currentConversationId,
                        metadata_only := false } }

/-- The rest of `sendMessage` once `askQuestion` has returned `answer` (the
canned apology when the request failed): `removeChild(typingIndicator)` throws
when the indicator is no longer in the chat (the chat was cleared in the
meantime), and the answer is then not appended. -/
def sendMessageResolve (s : State) (indicatorAttached : Bool) (answer : JSString)
    (now : Nat) : Completion :=
  if indicatorAttached then { state := appendMessage s (js "bot") answer now, threw := false }
  else { state := s, threw := true }

/-! ## `uploadPaper` -/

/-- A selected file: its name and its media type. -/
structure File where
  name : JSString
  type : JSString
deriving DecidableEq, Repr

/-- How `fetch('/upload')` ends: it rejects with an error of the given
message, or it resolves with a response whose `ok` flag is given and whose
`json()` yields a paper record or rejects with an error of the given message. -/
inductive UploadOutcome where
  | rejected (message : JSString)
  | resolved (ok : Bool) (body : Except JSString Paper)

/-- The upload form and the variables of one `uploadPaper` call: the width of
the progress bar in percent, the status line, the danger mark, the selection of
the file input, the local variable `progress` and whether its interval runs. -/
structure UploadView where
  progressWidth : Nat
  status : JSString
  failed : Bool
  selection : Option (List File)
  progress : Nat
  intervalActive : Bool
deriving DecidableEq, Repr

/-- The check at the head of `uploadPaper`: the message of the `alert` that
ends the call, or the file to upload. -/
def validateUpload (files : Option (List File)) : Except JSString File :=
  match files with
  | none => .error (js "Please select a PDF file to upload.")
  | some [] => .error (js "Please select a PDF file to upload.")
  | some (file :: _) =>
    if file.type ≠ js "application/pdf" then .error (js "Only PDF files are supported.")
    else .ok file

/-- One firing of the interval callback of `uploadPaper`. -/
def progressTick (v : UploadView) : UploadView :=
  if v.intervalActive then
    let progress := v.progress + 5
    { v with progress := progress, intervalActive := decide (¬ progress > 90),
             progressWidth := progress }
  else v

/-- The `catch` block of `uploadPaper` for an error with the given message. -/
def uploadFailed (v : UploadView) (message : JSString) : UploadView :=
  { v with status := js "Upload failed: " ++ message, failed := true }

/-- The continuation of `uploadPaper` after `await fetch('/upload', ...)`, on
the globals as they are at that moment, a `try` block: a throw of
`updatePapersTable()`, which runs between `papers.push` and
`stats.paperCount++`, ends the block there and runs the `catch`. -/
def uploadResolve (browser : Browser) (s : State) (v : UploadView) :
    UploadOutcome → State × UploadView
  | .rejected message => (s, uploadFailed v message)
  | .resolved ok body =>
    let v1 := { v with intervalActive := false }
    if ¬ ok then (s, uploadFailed v1 (js "Upload failed"))
    else
      let v2 := { v1 with progressWidth := 100, status := js "Processing..." }
      match body with
      | .error message => (s, uploadFailed v2 message)
      | .ok paperData =>
        let v3 := { v2 with status := js "Upload complete!" }
        let s1 : State := { s with papers := s.papers ++ [paperData] }
        if papersTableThrows browser s1.papers then (s1, uploadFailed v3 browser.nullMessage)
        else
          let s2 : State :=
            { s1 with stats := { s1.stats with paperCount := s1.stats.paperCount + 1 } }
          (s2, { v3 with selection := some [] })

/-- What one call of `uploadPaper` has done: the globals, the form, the alert
shown, and the number of requests sent to `/upload`. -/
structure UploadResult where
  state : State
  view : UploadView
  alert : Option JSString
  requests : Nat
deriving DecidableEq, Repr

/-- The function `uploadPaper` for the selection of the file input, with
`ticks` firings of the interval timer before the request ends as `outcome`. -/
def uploadPaper (browser : Browser) (s : State) (v : UploadView) (ticks : Nat)
    (outcome : UploadOutcome) : UploadResult :=
  match validateUpload v.selection with
  | .error message => { state := s, view := v, alert := some message, requests := 0 }
  | .ok _ =>
    let v1 := { v with progressWidth := 0, status := js "Uploading...", progress := 0,
                       intervalActive := true }
    let v2 := progressTick^[ticks] v1
    let r := uploadResolve browser s v2 outcome
    { state := r.1, view := r.2, alert := none, requests := 1 }

/-- The form as `uploadPaper` leaves it before the `fetch`, once the selection
has passed the check: the bar at `0%`, the status `'Uploading...'`, the local
variable `progress` at 0 and its interval started. -/
def beginUpload (v : UploadView) : UploadView :=
  { v with progressWidth := 0, status := js "Uploading...", progress := 0,
           intervalActive := true }

/-! ## `showChat` and the recent-questions list -/

/-- The function `showChat`, on the globals: `if (!currentConversationId)
createNewConversation()`; `null` and the empty string are falsy. -/
def showChat (browser : Browser) (s : State) (rnd : Nat → Draw) (created greeted : Nat) :
    Completion :=
  match s.currentConversationId with
  | none => createNewConversation browser s rnd created greeted
  | some id =>
    if id = [] then createNewConversation browser s rnd created greeted
    else { state := s, threw := false }

/-- One item of the recent-questions list as `updateRecentQuestionsList` builds
it; the click handler of the item keeps `conversationId`. -/
structure RecentQuestion where
  text : JSString
  timestamp : Nat
  conversationId : JSString
deriving DecidableEq, Repr

/-- The array `allQuestions` of `updateRecentQuestionsList`: the `'user'`
messages of all conversations, in key order and then in message order. -/
def allQuestions (st : Store) : List RecentQuestion :=
  st.flatMap (fun e =>
    (e.2.messages.filter (fun m => decide (m.sender = js "user"))).map
      (fun m => { text := m.text, timestamp := m.timestamp, conversationId := e.1 }))

/-- The items that `updateRecentQuestionsList` renders: none when there is no
question, else the five newest by timestamp. -/
def updateRecentQuestionsList (st : Store) : List RecentQuestion :=
  if (allQuestions st).length = 0 then []
  else (sort (fun a b : RecentQuestion => (b.timestamp : Int) - (a.timestamp : Int))
    (allQuestions st)).take 5

/-- The globals together with the items that the recent-questions list shows:
the list is rebuilt only when `updateRecentQuestionsList` runs. -/
structure Page where
  state : State
  recentQuestions : List RecentQuestion
deriving DecidableEq, Repr

/-- The page when the script has loaded: no item has been rendered. -/
def initialPage : Page := { state := initialState, recentQuestions := [] }

/-- The function `appendMessage` with its call of `updateRecentQuestionsList`,
which it makes for the sender `'user'` only. -/
def appendMessageOnPage (p : Page) (sender text : JSString) (now : Nat) : Page :=
  let s1 := appendMessage p.state sender text now
  { state := s1
    recentQuestions :=
      if sender = js "user" then updateRecentQuestionsList s1.conversations
      else p.recentQuestions }

/-- The function `createNewConversation` on the page: its `appendMessage` has
the sender `'bot'`, so the recent-questions list stays as it is. -/
def createNewConversationOnPage (browser : Browser) (p : Page) (rnd : Nat → Draw)
    (created greeted : Nat) : Page :=
  { p with state := (createNewConversation browser p.state rnd created greeted).state }

/-- The function `showChat` on the page. -/
def showChatOnPage (browser : Browser) (p : Page) (rnd : Nat → Draw) (created greeted : Nat) :
    Page :=
  { p with state := (showChat browser p.state rnd created greeted).state }

/-- The completed delete handler on the page: it rebuilds the conversations
list and never the recent-questions list. -/
def deleteConversationOnPage (browser : Browser) (p : Page) (id : JSString) (rnd : Nat → Draw)
    (created greeted : Nat) : Page :=
  { p with state := (deleteConversation browser p.state id rnd created greeted).state }

/-- The loop of `loadConversation` on the page. -/
def loadLoopOnPage (id : JSString) (clock : Nat → Nat) : Nat → Nat → Page → Page
  | 0, _, p => p
  | n + 1, k, p =>
    match (p.state.conversations.get id).bind (fun c => c.messages[k]?) with
    | some m => loadLoopOnPage id clock n (k + 1) (appendMessageOnPage p m.sender m.text (clock k))
    | none => loadLoopOnPage id clock n (k + 1) p

/-- The function `loadConversation` on the page. -/
def loadConversationOnPage (p : Page) (id : JSString) (clock : Nat → Nat) : Page :=
  match p.state.conversations.get id with
  | none => p
  | some c => loadLoopOnPage id clock c.messages.length 0 p

/-- The click handler of an item of the recent-questions list:
`currentConversationId = question.conversationId; showChat();
loadConversation(question.conversationId)`; a throw of `showChat` ends it. -/
def openRecentQuestion (browser : Browser) (p : Page) (q : RecentQuestion) (rnd : Nat → Draw)
    (created greeted : Nat) (clock : Nat → Nat) : Page :=
  let shown := showChat browser { p.state with currentConversationId := some q.conversationId }
    rnd created greeted
  if shown.threw then { p with state := shown.state }
  else loadConversationOnPage { p with state := shown.state } q.conversationId clock

/-- One event of the page together with what its handler reads from the
environment. -/
inductive PageOp where
  | showChat (rnd : Nat → Draw) (created greeted : Nat)
  | newConversation (rnd : Nat → Draw) (created greeted : Nat)
  | ask (chatInput : JSString) (now : Nat)
  | answer (text : JSString) (now : Nat)
  | openConversation (id : JSString) (clock : Nat → Nat)
  | openRecentQuestion (q : RecentQuestion) (rnd : Nat → Draw) (created greeted : Nat)
      (clock : Nat → Nat)
  | delete (id : JSString) (rnd : Nat → Draw) (created greeted : Nat)

/-- The effect of one event on the page.  `ask` is `sendMessage` up to its
`await`, `answer` its continuation when the typing indicator is still in the
chat. -/
def pageStep (browser : Browser) (p : Page) : PageOp → Page
  | .showChat rnd created greeted => showChatOnPage browser p rnd created greeted
  | .newConversation rnd created greeted =>
    createNewConversationOnPage browser p rnd created greeted
  | .ask chatInput now =>
    if trim chatInput = [] then p else appendMessageOnPage p (js "user") (trim chatInput) now
  | .answer text now => appendMessageOnPage p (js "bot") text now
  | .openConversation id clock =>
    loadConversationOnPage { p with state := { p.state with currentConversationId := some id } }
      id clock
  | .openRecentQuestion q rnd created greeted clock =>
    openRecentQuestion browser p q rnd created greeted clock
  | .delete id rnd created greeted => deleteConversationOnPage browser p id rnd created greeted

/-- An event that the page offers: an item can be clicked when it is shown,
that is, when the conversation is in the store (the conversations list is
rebuilt at every creation and deletion) or when the question is among the
rendered recent questions. -/
def offered (p : Page) : PageOp → Prop
  | .showChat _ _ _ => True
  | .newConversation _ _ _ => True
  | .ask _ _ => True
  | .answer _ _ => True
  | .openConversation id _ => id ∈ p.state.conversations.keys
  | .openRecentQuestion q _ _ _ _ => q ∈ p.recentQuestions
  | .delete id _ _ _ => id ∈ p.state.conversations.keys

instance (p : Page) (op : PageOp) : Decidable (offered p op) := by
  cases op <;> unfold offered <;> infer_instance

/-- The pages reached from the initial page by offered events. -/
inductive PageReachable (browser : Browser) : Page → Prop where
  | init : PageReachable browser initialPage
  | next {p : Page} (op : PageOp) :
      PageReachable browser p → offered p op → PageReachable browser (pageStep browser p op)

/-- What every store of the program satisfies: no key is the empty string and
every stored message has the sender `'user'` or `'bot'`. -/
def wellFormed (st : Store) : Prop :=
  ∀ e ∈ st, e.1 ≠ [] ∧ ∀ m ∈ e.2.messages, m.sender = js "user" ∨ m.sender = js "bot"

/-! ## The replay of `loadConversation`, as specified -/

/-- The copies that a replay of the messages `ms` appends: the same senders
and texts in the same order; the `k`-th copy is stamped `clock k`. -/
def replayCopies (clock : Nat → Nat) : List Message → Nat → List Message
  | [], _ => []
  | m :: ms, k => { sender := m.sender, text := m.text, timestamp := clock k } ::
      replayCopies clock ms (k + 1)

/-! ## Concrete runs -/

/-- Whether `pat` occurs in `t`. -/
def hasInfix (pat : JSString) : JSString → Bool
  | [] => pat.isPrefixOf []
  | c :: cs => pat.isPrefixOf (c :: cs) || hasInfix pat cs

/-- A browser whose parser loses the rest of the markup after a comment opener
`<!--` in interpolated text that no `-->` closes, and loses nothing otherwise:
what an HTML parser does with the texts of the runs below. -/
def commentBrowser : Browser :=
  { itemHasDeleteButton := fun title =>
      !(hasInfix (js "<!--") title && !hasInfix (js "-->") title)
    rowHasButtons := fun p =>
      !((hasInfix (js "<!--") p.title || hasInfix (js "<!--") p.authors ||
          hasInfix (js "<!--") p.organizations) &&
        !(hasInfix (js "-->") p.title || hasInfix (js "-->") p.authors ||
          hasInfix (js "-->") p.organizations))
    nullMessage := js "Cannot read properties of null" }

/-- The draws that are all `0`: they generate
`00000000-0000-4000-8000-000000000000`. -/
def zeroDraws : Nat → Draw := fun _ => { num := 0, den := 1 }

/-- The draws that are all `1/16`: they generate
`11111111-1111-4111-9111-111111111111`. -/
def oneDraws : Nat → Draw := fun _ => { num := 1, den := 16 }

/-- The draws that are all `2/16`: they generate
`22222222-2222-4222-a222-222222222222`. -/
def twoDraws : Nat → Draw := fun _ => { num := 2, den := 16 }

/-- A conversation is created, a question is asked in it, and the
conversation is deleted. -/
def askThenDelete : List Op :=
  [.create zeroDraws 0 0, .append (js "user") (js "q") 1,
   .delete (generateUUID zeroDraws) oneDraws 2 2]

/-- One conversation is created. -/
def createOnce : List Op := [.create zeroDraws 0 0]

/-- Two conversations are created from the same draws. -/
def createTwice : List Op := [.create zeroDraws 0 0, .create zeroDraws 1 1]

/-- A question is asked in a first conversation, a second conversation is
created, and the first one, no longer current, is deleted. -/
def deleteFirst : List Op :=
  [.create zeroDraws 0 0, .append (js "user") (js "q") 1, .create oneDraws 2 2,
   .delete (generateUUID zeroDraws) zeroDraws 3 3]

/-- The state after `deleteFirst` and a click on the entry that the
recent-questions list still shows for the question of the deleted
conversation: the handler makes that identifier current and replays nothing. -/
def staleCurrent : State :=
  switchConversation (run commentBrowser initialState deleteFirst) (generateUUID zeroDraws)
    (fun k => 4 + k)

/-- A first conversation is created, then a second one, in which the question
`<!--` is asked, and the first one is made current again. -/
def askCommentInSecond : State :=
  switchConversation
    (run commentBrowser initialState
      [.create zeroDraws 0 0, .create oneDraws 1 1, .append (js "user") (js "<!--") 2])
    (generateUUID zeroDraws) (fun k => 3 + k)

/-- The chat is opened, a question is asked, and the conversation, which is
current, is deleted and replaced. -/
def askAndDeleteOnPage : List PageOp :=
  [.showChat zeroDraws 0 0, .ask (js "q") 1, .delete (generateUUID zeroDraws) oneDraws 2 2]

/-- The effect of a sequence of events on the page. -/
def pageRun (browser : Browser) (p : Page) (ops : List PageOp) : Page :=
  ops.foldl (pageStep browser) p

/-- The item that the recent-questions list shows for the question of
`askAndDeleteOnPage`. -/
def staleQuestion : RecentQuestion :=
  { text := js "q", timestamp := 1, conversationId := generateUUID zeroDraws }

/-- The page after `askAndDeleteOnPage` and a click on `staleQuestion`. -/
def stalePage : Page :=
  pageStep commentBrowser (pageRun commentBrowser initialPage askAndDeleteOnPage)
    (.openRecentQuestion staleQuestion oneDraws 3 3 (fun k => 4 + k))

/-- A conversation is created and a question is asked in it. -/
def createAndAsk : List Op :=
  [.create zeroDraws 0 0, .append (js "user") (js "q") 1]

/-- A paper record with the given identifier and title. -/
def samplePaper (id title : JSString) : Paper :=
  { id := id, title := title, authors := js "A. Author", organizations := js "Org",
    emails := js "a@example.org" }

/-- Six papers in insertion order, with the identifiers `a`, `b`, `c`, `d`,
`e` and `F`. -/
def sixPapers : List Paper :=
  [samplePaper (js "a") (js "first"), samplePaper (js "b") (js "second"),
   samplePaper (js "c") (js "third"), samplePaper (js "d") (js "fourth"),
   samplePaper (js "e") (js "fifth"), samplePaper (js "F") (js "sixth")]

/-- Seven papers in insertion order; the identifier `b` occurs three times,
the identifier `c` twice. -/
def sevenPapers : List Paper :=
  [samplePaper (js "b") (js "first"), samplePaper (js "c") (js "second"),
   samplePaper (js "b") (js "third"), samplePaper (js "a") (js "fourth"),
   samplePaper (js "c") (js "fifth"), samplePaper (js "b") (js "sixth"),
   samplePaper (js "d") (js "seventh")]

/-- The idle upload form with the given selection. -/
def idleView (selection : Option (List File)) : UploadView :=
  { progressWidth := 0, status := js "", failed := false, selection := selection,
    progress := 0, intervalActive := false }

/-- The file of the upload scenario: `paper.pdf` of type `application/pdf`. -/
def pdfFile : File := { name := js "paper.pdf", type := js "application/pdf" }

/-- A file of type `text/plain`. -/
def textFile : File := { name := js "notes.txt", type := js "text/plain" }

/-! # Theorems -/

/-! ## Store lemmas -/

theorem Store.get_set_self (st : Store) (id : JSString) (c : Conversation) :
    (st.set id c).get id = some c := by
  induction st with
  | nil => simp [Store.set, Store.get]
  | cons e rest ih =>
    obtain ⟨k, v⟩ := e
    by_cases h : k = id <;> simp [Store.set, Store.get, h, ih]

theorem Store.get_set_of_ne (st : Store) (id k : JSString) (c : Conversation) (h : k ≠ id) :
    (st.set id c).get k = st.get k := by
  induction st with
  | nil => simp [Store.set, Store.get, Ne.symm h]
  | cons e rest ih =>
    obtain ⟨k', v⟩ := e
    by_cases h' : k' = id
    · subst h'
      simp [Store.set, Store.get, Ne.symm h]
    · by_cases h'' : k' = k
      · subst h''
        simp [Store.set, Store.get, h']
      · simp [Store.set, Store.get, h', h'', ih]

theorem Store.get_eq_none_iff (st : Store) (id : JSString) :
    st.get id = none ↔ id ∉ st.keys := by
  induction st with
  | nil => simp [Store.get, Store.keys]
  | cons e rest ih =>
    obtain ⟨k, v⟩ := e
    by_cases h : k = id
    · simp [Store.get, Store.keys, h]
    · simp only [Store.get, h, if_false, ih]
      simp [Store.keys, Ne.symm h]

theorem Store.mem_keys_of_get (st : Store) (id : JSString) (c : Conversation)
    (h : st.get id = some c) : id ∈ st.keys := by
  by_contra hc
  rw [← Store.get_eq_none_iff] at hc
  rw [hc] at h
  cases h

theorem Store.mem_of_get (st : Store) (id : JSString) (c : Conversation)
    (h : st.get id = some c) : (id, c) ∈ st := by
  induction st with
  | nil => simp [Store.get] at h
  | cons e rest ih =>
    obtain ⟨k, v⟩ := e
    by_cases hk : k = id
    · simp [Store.get, hk] at h
      simp [hk, h]
    · simp [Store.get, hk] at h
      exact List.mem_cons_of_mem _ (ih h)

theorem Store.keys_set_of_mem (st : Store) (id : JSString) (c : Conversation)
    (h : id ∈ st.keys) : (st.set id c).keys = st.keys := by
  induction st with
  | nil => simp [Store.keys] at h
  | cons e rest ih =>
    obtain ⟨k, v⟩ := e
    by_cases hk : k = id
    · simp [Store.set, Store.keys, hk]
    · have : id ∈ Store.keys rest := by
        simp only [Store.keys, List.map_cons, List.mem_cons] at h
        rcases h with h | h
        · exact absurd h.symm hk
        · exact h
      have ih' := ih this
      simp only [Store.keys] at ih'
      simp [Store.set, Store.keys, hk, ih']

theorem Store.set_of_not_mem (st : Store) (id : JSString) (c : Conversation)
    (h : id ∉ st.keys) : st.set id c = st ++ [(id, c)] := by
  induction st with
  | nil => simp [Store.set]
  | cons e rest ih =>
    obtain ⟨k, v⟩ := e
    simp only [Store.keys, List.map_cons, List.mem_cons, not_or] at h
    have hk : ¬ k = id := fun hc => h.1 hc.symm
    simp [Store.set, hk, ih h.2]

theorem Store.mem_keys_set (st : Store) (id k : JSString) (c : Conversation) :
    k ∈ (st.set id c).keys ↔ k = id ∨ k ∈ st.keys := by
  by_cases h : id ∈ st.keys
  · rw [Store.keys_set_of_mem st id c h]
    constructor
    · exact Or.inr
    · rintro (rfl | hk)
      · exact h
      · exact hk
  · rw [Store.set_of_not_mem st id c h]
    simp [Store.keys, or_comm]

theorem Store.mem_keys_delete (st : Store) (id k : JSString) :
    k ∈ (st.delete id).keys ↔ k ≠ id ∧ k ∈ st.keys := by
  simp only [Store.keys, Store.delete, List.mem_map, List.mem_filter, decide_eq_true_eq]
  constructor
  · rintro ⟨e, ⟨he, hne⟩, rfl⟩
    exact ⟨hne, e, he, rfl⟩
  · rintro ⟨hne, e, he, rfl⟩
    exact ⟨e, ⟨he, hne⟩, rfl⟩

theorem Store.set_set (st : Store) (id : JSString) (a b : Conversation) :
    (st.set id a).set id b = st.set id b := by
  induction st with
  | nil => simp [Store.set]
  | cons e rest ih =>
    obtain ⟨k, v⟩ := e
    by_cases h : k = id <;> simp [Store.set, h, ih]

theorem Store.set_of_get (st : Store) (id : JSString) (c : Conversation)
    (h : st.get id = some c) : st.set id c = st := by
  induction st with
  | nil => simp [Store.get] at h
  | cons e rest ih =>
    obtain ⟨k, v⟩ := e
    by_cases hk : k = id
    · simp only [Store.get, hk, if_true, Option.some.injEq] at h
      simp [Store.set, hk, h]
    · simp only [Store.get, hk, if_false] at h
      simp [Store.set, hk, ih h]

/-! ## `generateUUID` -/

theorem toDigitsCore_ne_nil (b fuel n : Nat) (ds : List Char) (h : ds ≠ []) :
    Nat.toDigitsCore b fuel n ds ≠ [] := by
  induction fuel generalizing n ds with
  | zero => simpa [Nat.toDigitsCore] using h
  | succ f ih =>
    simp only [Nat.toDigitsCore]
    split
    · simp
    · exact ih _ _ (by simp)

theorem toString16_ne_nil (v : Nat) : toString16 v ≠ [] := by
  simp only [toString16, Nat.toDigits, Nat.toDigitsCore, ne_eq, List.map_eq_nil_iff]
  split
  · simp
  · exact toDigitsCore_ne_nil _ _ _ _ (by simp)

theorem uuidTemplate_eq : uuidTemplate = [120, 120, 120, 120, 120, 120, 120, 120, 45, 120, 120,
    120, 120, 45, 52, 120, 120, 120, 45, 121, 120, 120, 120, 45, 120, 120, 120, 120, 120, 120,
    120, 120, 120, 120, 120, 120] := by decide

theorem generateUUID_ne_nil (rnd : Nat → Draw) : generateUUID rnd ≠ [] := by
  have h : uuidReplacer 120 (rnd 0) ≠ [] := toString16_ne_nil _
  simp [generateUUID, uuidTemplate_eq, replaceXY, h]

theorem randomNibble_lt (d : Draw) (h : d.num < d.den) : randomNibble d < 16 := by
  unfold randomNibble
  rw [Nat.div_lt_iff_lt_mul (by omega)]
  omega

theorem toString16_x : ∀ r < 16, ∃ u, toString16 r = [u] ∧ isLowerHex u := by
  intro r hr
  interval_cases r <;> exact ⟨_, rfl, by decide⟩

theorem toString16_y : ∀ r < 16, ∃ u, toString16 ((r &&& 0x3) ||| 0x8) = [u] ∧
    u ∈ ['8'.toNat, '9'.toNat, 'a'.toNat, 'b'.toNat] := by
  intro r hr
  interval_cases r <;> exact ⟨_, rfl, by decide⟩

theorem uuidReplacer_x (d : Draw) (h : d.num < d.den) :
    ∃ u, uuidReplacer 120 d = [u] ∧ isLowerHex u := by
  simpa [uuidReplacer] using toString16_x _ (randomNibble_lt d h)

theorem uuidReplacer_y (d : Draw) (h : d.num < d.den) :
    ∃ u, uuidReplacer 121 d = [u] ∧ u ∈ ['8'.toNat, '9'.toNat, 'a'.toNat, 'b'.toNat] := by
  simpa [uuidReplacer] using toString16_y _ (randomNibble_lt d h)

/-- C5: when every draw of `Math.random()` lies in `[0, 1)`, `generateUUID`
returns 36 code units: `'-'` at the indices 8, 13, 18 and 23, `'4'` at index
14, one of `'8'`, `'9'`, `'a'`, `'b'` at index 19, and a lowercase hexadecimal
digit at every other index. -/
theorem generateUUID_format (rnd : Nat → Draw)
    (h : ∀ k < 31, (rnd k).num < (rnd k).den) :
    (generateUUID rnd).length = 36 ∧
    ∀ i u, (generateUUID rnd)[i]? = some u →
      if i = 8 ∨ i = 13 ∨ i = 18 ∨ i = 23 then u = '-'.toNat
      else if i = 14 then u = '4'.toNat
      else if i = 19 then u ∈ ['8'.toNat, '9'.toNat, 'a'.toNat, 'b'.toNat]
      else isLowerHex u := by
  have hx : ∀ k : Fin 31, ∃ u, uuidReplacer 120 (rnd k) = [u] ∧ isLowerHex u :=
    fun k => uuidReplacer_x _ (h k.1 k.2)
  obtain ⟨y, hy, hy'⟩ := uuidReplacer_y _ (h 15 (by omega))
  choose x hx hx' using hx
  have e : generateUUID rnd = [x 0, x 1, x 2, x 3, x 4, x 5, x 6, x 7, 45, x 8, x 9, x 10, x 11, 45,
      52, x 12, x 13, x 14, 45, y, x 16, x 17, x 18, 45, x 19, x 20, x 21, x 22, x 23, x 24,
      x 25, x 26, x 27, x 28, x 29, x 30] := by
    have hx0 := fun (k : Nat) (hk : k < 31) => hx ⟨k, hk⟩
    simp only [Fin.val_mk] at hx0
    simp [generateUUID, uuidTemplate_eq, replaceXY, hx0, hy]
  rw [e]
  refine ⟨rfl, ?_⟩
  intro i u hi
  have hlt : i < 36 := by
    by_contra hc
    rw [List.getElem?_eq_none (by simpa using hc)] at hi
    cases hi
  interval_cases i <;> simp at hi <;> subst hi <;> simp [hx', hy']
  all_goals first | exact hy' | simpa using hy'

/-- The format of C5 at the draws `k / 40`, `k = 0, 1, 2, ...`. -/
theorem generateUUID_format_witness :
    (generateUUID (fun k => ⟨k, 40⟩)).length = 36 ∧
    ∀ i u, (generateUUID (fun k => ⟨k, 40⟩))[i]? = some u →
      if i = 8 ∨ i = 13 ∨ i = 18 ∨ i = 23 then u = '-'.toNat
      else if i = 14 then u = '4'.toNat
      else if i = 19 then u ∈ ['8'.toNat, '9'.toNat, 'a'.toNat, 'b'.toNat]
      else isLowerHex u :=
  generateUUID_format (fun k => ⟨k, 40⟩) (fun k hk => by
    show k < 40
    omega)

/-! ## `appendMessage` and `createNewConversation` -/

theorem bot_ne_user : js "bot" ≠ js "user" := by decide

theorem currentConversation_eq_some (s : State) (id : JSString) (c : Conversation)
    (hid : s.currentConversationId = some id) (hne : id ≠ [])
    (hget : s.conversations.get id = some c) : currentConversation s = some (id, c) := by
  simp [currentConversation, hid, hne, hget]

theorem currentConversation_some_iff (s : State) (id : JSString) (c : Conversation) :
    currentConversation s = some (id, c) ↔
      s.currentConversationId = some id ∧ id ≠ [] ∧ s.conversations.get id = some c := by
  constructor
  · intro h
    unfold currentConversation at h
    cases hc : s.currentConversationId with
    | none => simp [hc] at h
    | some k =>
      rw [hc] at h
      by_cases hk : k = []
      · simp [hk] at h
      · simp only [hk, if_false, Option.map_eq_some'] at h
        obtain ⟨c', hc', he⟩ := h
        cases he
        exact ⟨rfl, hk, hc'⟩
  · rintro ⟨h1, h2, h3⟩
    exact currentConversation_eq_some s id c h1 h2 h3

theorem pushMessage_of_none (s : State) (m : Message) (h : currentConversation s = none) :
    pushMessage s m = s := by
  simp [pushMessage, h]

theorem pushMessage_of_some (s : State) (m : Message) (id : JSString) (c : Conversation)
    (h : currentConversation s = some (id, c)) :
    pushMessage s m =
      { s with conversations :=
          s.conversations.set id { c with messages := c.messages ++ [m] } } := by
  simp [pushMessage, h]

theorem appendMessage_bot (s : State) (text : JSString) (now : Nat) :
    appendMessage s (js "bot") text now =
      pushMessage s { sender := js "bot", text := text, timestamp := now } := by
  simp [appendMessage, bot_ne_user]

theorem appendMessage_user (s : State) (text : JSString) (now : Nat) :
    appendMessage s (js "user") text now =
      countQuestion (pushMessage s { sender := js "user", text := text, timestamp := now }) := by
  simp [appendMessage]

theorem createdState_current (s : State) (rnd : Nat → Draw) (created : Nat) :
    currentConversation (createdState s rnd created) =
      some (generateUUID rnd, { messages := [], created := created }) :=
  currentConversation_eq_some _ _ _ rfl (generateUUID_ne_nil rnd) (Store.get_set_self _ _ _)

theorem appendMessage_createdState (s : State) (rnd : Nat → Draw) (created greeted : Nat) :
    appendMessage (createdState s rnd created) (js "bot") greeting greeted =
      { currentConversationId := some (generateUUID rnd)
        conversations :=
          s.conversations.set (generateUUID rnd)
            { messages := [{ sender := js "bot", text := greeting, timestamp := greeted }]
              created := created }
        papers := s.papers
        stats := { s.stats with conversationCount := s.stats.conversationCount + 1 } } := by
  rw [appendMessage_bot, pushMessage_of_some _ _ _ _ (createdState_current s rnd created)]
  simp [createdState, Store.set_set]

theorem createNewConversation_of_throws (browser : Browser) (s : State) (rnd : Nat → Draw)
    (created greeted : Nat)
    (h : conversationsListThrows browser (createdState s rnd created).conversations = true) :
    createNewConversation browser s rnd created greeted =
      { state := createdState s rnd created, threw := true } := by
  simp [createNewConversation, h]

theorem createNewConversation_of_renders (browser : Browser) (s : State) (rnd : Nat → Draw)
    (created greeted : Nat)
    (h : conversationsListThrows browser (createdState s rnd created).conversations = false) :
    createNewConversation browser s rnd created greeted =
      { state := appendMessage (createdState s rnd created) (js "bot") greeting greeted
        threw := false } := by
  simp [createNewConversation, h]

/-- The globals after `createNewConversation`, whether or not the rebuilding of
the conversations list threw: the new entry holds the greeting, or nothing
when it threw. -/
theorem createNewConversation_state (browser : Browser) (s : State) (rnd : Nat → Draw)
    (created greeted : Nat) :
    ∃ msgs : List Message,
      (msgs = [] ∨ msgs = [{ sender := js "bot", text := greeting, timestamp := greeted }]) ∧
      (createNewConversation browser s rnd created greeted).state =
        { currentConversationId := some (generateUUID rnd)
          conversations :=
            s.conversations.set (generateUUID rnd) { messages := msgs, created := created }
          papers := s.papers
          stats := { s.stats with conversationCount := s.stats.conversationCount + 1 } } := by
  cases h : conversationsListThrows browser (createdState s rnd created).conversations with
  | true =>
    rw [createNewConversation_of_throws browser s rnd created greeted h]
    exact ⟨[], Or.inl rfl, by simp [createdState]⟩
  | false =>
    rw [createNewConversation_of_renders browser s rnd created greeted h]
    exact ⟨_, Or.inr rfl, appendMessage_createdState s rnd created greeted⟩

theorem createNewConversation_of_not_threw (browser : Browser) (s : State) (rnd : Nat → Draw)
    (created greeted : Nat)
    (h : (createNewConversation browser s rnd created greeted).threw = false) :
    (createNewConversation browser s rnd created greeted).state =
      { currentConversationId := some (generateUUID rnd)
        conversations :=
          s.conversations.set (generateUUID rnd)
            { messages := [{ sender := js "bot", text := greeting, timestamp := greeted }]
              created := created }
        papers := s.papers
        stats := { s.stats with conversationCount := s.stats.conversationCount + 1 } } := by
  cases hc : conversationsListThrows browser (createdState s rnd created).conversations with
  | true =>
    rw [createNewConversation_of_throws browser s rnd created greeted hc] at h
    cases h
  | false =>
    rw [createNewConversation_of_renders browser s rnd created greeted hc]
    exact appendMessage_createdState s rnd created greeted

/-! ## C4: conversation titles -/

theorem titleLoop_eq_spec (ms : List Message) :
    titleLoop ms =
      match ms.find? (fun m => decide (m.sender = js "user")) with
      | some m => if m.text.length > 30 then m.text.take 30 ++ js "..." else m.text.take 30
      | none => js "Conversation" := by
  induction ms with
  | nil => simp [titleLoop]
  | cons m ms ih =>
    by_cases h : m.sender = js "user"
    · by_cases hl : m.text.length > 30
      · simp [titleLoop, List.find?, h, hl]
      · simp [titleLoop, List.find?, h, hl, js]
    · simp [titleLoop, List.find?, h, ih]

/-- C4: the title that `updateConversationsList` computes is the first 30 code
units of the text of the first `'user'` message, followed by `'...'` exactly
when that text is longer than 30, and `'Conversation'` when there is no such
message; and right after `createNewConversation` and the append of a user
message `t`, the item computed for the new (current) conversation carries the
first 30 code units of `t`, with `'...'` exactly when `t` is longer. -/
theorem conversationTitle_spec :
    (∀ c : Conversation, conversationTitle c = specTitle c) ∧
    (∀ (browser : Browser) (s : State) (rnd : Nat → Draw) (created greeted : Nat)
      (t : JSString) (now : Nat),
      (generateUUID rnd,
        t.take 30 ++ (if t.length > 30 then js "..." else js ""),
        true) ∈
      updateConversationsList
        (appendMessage (createNewConversation browser s rnd created greeted).state
          (js "user") t now)) := by
  refine ⟨fun c => ?_, ?_⟩
  · simp only [conversationTitle, specTitle]
    exact titleLoop_eq_spec c.messages
  · intro browser s rnd created greeted t now
    obtain ⟨msgs, hmsgs, hst⟩ := createNewConversation_state browser s rnd created greeted
    have hcur : currentConversation (createNewConversation browser s rnd created greeted).state =
        some (generateUUID rnd, { messages := msgs, created := created }) := by
      rw [hst]
      exact currentConversation_eq_some _ _ _ rfl (generateUUID_ne_nil rnd)
        (Store.get_set_self _ _ _)
    rw [appendMessage_user, pushMessage_of_some _ _ _ _ hcur]
    simp only [updateConversationsList, List.mem_map]
    refine ⟨(generateUUID rnd, _), Store.mem_of_get _ _ _ (Store.get_set_self _ _ _), ?_⟩
    rcases hmsgs with rfl | rfl <;>
      simp [hst, conversationTitle, titleLoop, bot_ne_user, countQuestion]

/-! ## Counting the stored questions -/

theorem userTotal_set_of_get (st : Store) (id : JSString) (c c0 : Conversation)
    (h : st.get id = some c0) :
    userTotal (st.set id c) + userCount c0.messages = userTotal st + userCount c.messages := by
  induction st with
  | nil => simp [Store.get] at h
  | cons e rest ih =>
    obtain ⟨k, v⟩ := e
    by_cases hk : k = id
    · simp only [Store.get, hk, if_true, Option.some.injEq] at h
      subst h
      simp only [Store.set, hk, if_true, userTotal, List.map_cons, List.sum_cons]
      omega
    · simp only [Store.get, hk, if_false] at h
      have := ih h
      simp only [userTotal] at this
      simp only [Store.set, hk, if_false, userTotal, List.map_cons, List.sum_cons]
      omega

theorem userTotal_set_of_none (st : Store) (id : JSString) (c : Conversation)
    (h : st.get id = none) : userTotal (st.set id c) = userTotal st + userCount c.messages := by
  rw [Store.get_eq_none_iff] at h
  rw [Store.set_of_not_mem st id c h]
  simp [userTotal]

theorem userTotal_set_empty_le (st : Store) (id : JSString) (created : Nat) :
    userTotal (st.set id { messages := [], created := created }) ≤ userTotal st := by
  cases h : st.get id with
  | none => simp [userTotal_set_of_none st id _ h, userCount]
  | some c0 =>
    have := userTotal_set_of_get st id { messages := [], created := created } c0 h
    simp only [userCount, List.filter_nil, List.length_nil] at this
    omega

theorem userTotal_delete_le (st : Store) (id : JSString) :
    userTotal (st.delete id) ≤ userTotal st := by
  induction st with
  | nil => simp [Store.delete]
  | cons e rest ih =>
    simp only [Store.delete, userTotal] at ih
    by_cases hk : e.1 = id
    · simp only [Store.delete, userTotal, List.filter_cons, hk, ne_eq, not_true_eq_false,
        decide_False, Bool.false_eq_true, if_false, List.map_cons, List.sum_cons]
      simp only [ne_eq] at ih
      omega
    · simp only [Store.delete, userTotal, List.filter_cons, hk, ne_eq, not_false_eq_true,
        decide_True, if_true, List.map_cons, List.sum_cons]
      simp only [ne_eq] at ih
      omega

theorem userCount_append_one (ms : List Message) (m : Message) :
    userCount (ms ++ [m]) = userCount ms + (if m.sender = js "user" then 1 else 0) := by
  by_cases h : m.sender = js "user" <;> simp [userCount, List.filter_append, h]

theorem userTotal_pushMessage_of_some (s : State) (m : Message)
    (h : (currentConversation s).isSome) :
    userTotal (pushMessage s m).conversations =
      userTotal s.conversations + (if m.sender = js "user" then 1 else 0) := by
  obtain ⟨⟨id, c⟩, hc⟩ := Option.isSome_iff_exists.mp h
  rw [pushMessage_of_some s m id c hc]
  have hget := ((currentConversation_some_iff s id c).mp hc).2.2
  have := userTotal_set_of_get s.conversations id
    { c with messages := c.messages ++ [m] } c hget
  simp only [userCount_append_one] at this
  simp only
  omega

theorem userTotal_pushMessage_le (s : State) (m : Message) :
    userTotal (pushMessage s m).conversations ≤
      userTotal s.conversations + (if m.sender = js "user" then 1 else 0) := by
  cases h : currentConversation s with
  | none => rw [pushMessage_of_none s m h]; omega
  | some e => exact le_of_eq (userTotal_pushMessage_of_some s m (by simp [h]))

theorem pushMessage_currentConversationId (s : State) (m : Message) :
    (pushMessage s m).currentConversationId = s.currentConversationId := by
  cases h : currentConversation s with
  | none => rw [pushMessage_of_none s m h]
  | some e => obtain ⟨id, c⟩ := e; rw [pushMessage_of_some s m id c h]

theorem pushMessage_stats (s : State) (m : Message) : (pushMessage s m).stats = s.stats := by
  cases h : currentConversation s with
  | none => rw [pushMessage_of_none s m h]
  | some e => obtain ⟨id, c⟩ := e; rw [pushMessage_of_some s m id c h]

theorem pushMessage_papers (s : State) (m : Message) : (pushMessage s m).papers = s.papers := by
  cases h : currentConversation s with
  | none => rw [pushMessage_of_none s m h]
  | some e => obtain ⟨id, c⟩ := e; rw [pushMessage_of_some s m id c h]

theorem pushMessage_keys (s : State) (m : Message) :
    (pushMessage s m).conversations.keys = s.conversations.keys := by
  cases h : currentConversation s with
  | none => rw [pushMessage_of_none s m h]
  | some e =>
    obtain ⟨id, c⟩ := e
    rw [pushMessage_of_some s m id c h]
    exact Store.keys_set_of_mem _ _ _
      (Store.mem_keys_of_get _ _ _ ((currentConversation_some_iff s id c).mp h).2.2)

theorem pushMessage_isSome (s : State) (m : Message) (h : (currentConversation s).isSome) :
    (currentConversation (pushMessage s m)).isSome := by
  obtain ⟨⟨id, c⟩, hc⟩ := Option.isSome_iff_exists.mp h
  obtain ⟨h1, h2, _⟩ := (currentConversation_some_iff s id c).mp hc
  rw [pushMessage_of_some s m id c hc]
  rw [currentConversation_eq_some
    { s with conversations := s.conversations.set id { c with messages := c.messages ++ [m] } }
    id _ h1 h2 (Store.get_set_self _ _ _)]
  rfl

/-- What `appendMessage` pushes: a `'user'` message for the sender `'user'`,
a `'bot'` message for every other sender. -/
theorem appendMessage_eq (s : State) (sender text : JSString) (now : Nat) :
    appendMessage s sender text now =
      if sender = js "user" then
        countQuestion (pushMessage s { sender := js "user", text := text, timestamp := now })
      else pushMessage s { sender := js "bot", text := text, timestamp := now } := by
  by_cases h : sender = js "user" <;> simp [appendMessage, h]

theorem appendMessage_questionCount (s : State) (sender text : JSString) (now : Nat) :
    (appendMessage s sender text now).stats.questionCount =
      s.stats.questionCount + (if sender = js "user" then 1 else 0) := by
  rw [appendMessage_eq]
  by_cases h : sender = js "user" <;> simp [h, countQuestion, pushMessage_stats]

theorem appendMessage_userTotal_le (s : State) (sender text : JSString) (now : Nat) :
    userTotal (appendMessage s sender text now).conversations ≤
      userTotal s.conversations + (if sender = js "user" then 1 else 0) := by
  rw [appendMessage_eq]
  by_cases h : sender = js "user"
  · simpa [h, countQuestion] using userTotal_pushMessage_le s
      { sender := js "user", text := text, timestamp := now }
  · simpa [h, bot_ne_user] using userTotal_pushMessage_le s
      { sender := js "bot", text := text, timestamp := now }

theorem appendMessage_userTotal_of_some (s : State) (sender text : JSString) (now : Nat)
    (hs : (currentConversation s).isSome) :
    userTotal (appendMessage s sender text now).conversations =
      userTotal s.conversations + (if sender = js "user" then 1 else 0) := by
  rw [appendMessage_eq]
  by_cases h : sender = js "user"
  · simpa [h, countQuestion] using userTotal_pushMessage_of_some s
      { sender := js "user", text := text, timestamp := now } hs
  · simpa [h, bot_ne_user] using userTotal_pushMessage_of_some s
      { sender := js "bot", text := text, timestamp := now } hs

theorem appendMessage_isSome (s : State) (sender text : JSString) (now : Nat)
    (hs : (currentConversation s).isSome) :
    (currentConversation (appendMessage s sender text now)).isSome := by
  rw [appendMessage_eq]
  by_cases h : sender = js "user"
  · simp only [h, if_true]
    have := pushMessage_isSome s { sender := js "user", text := text, timestamp := now } hs
    simpa [countQuestion, currentConversation] using this
  · simp only [h, if_false]
    exact pushMessage_isSome s _ hs

theorem appendMessage_keys (s : State) (sender text : JSString) (now : Nat) :
    (appendMessage s sender text now).conversations.keys = s.conversations.keys := by
  rw [appendMessage_eq]
  by_cases h : sender = js "user" <;> simp [h, countQuestion, pushMessage_keys]

theorem appendMessage_conversationCount (s : State) (sender text : JSString) (now : Nat) :
    (appendMessage s sender text now).stats.conversationCount = s.stats.conversationCount := by
  rw [appendMessage_eq]
  by_cases h : sender = js "user" <;> simp [h, countQuestion, pushMessage_stats]

/-- A property that every `appendMessage` preserves holds after the loop of
`loadConversation`. -/
theorem loadLoop_preserves (P : State → Prop)
    (hP : ∀ s sender text now, P s → P (appendMessage s sender text now))
    (id : JSString) (clock : Nat → Nat) :
    ∀ (n k : Nat) (s : State), P s → P (loadLoop id clock n k s) := by
  intro n
  induction n with
  | zero => intro k s h; simpa [loadLoop] using h
  | succ n ih =>
    intro k s h
    simp only [loadLoop]
    split
    · exact ih _ _ (hP _ _ _ _ h)
    · exact ih _ _ h

theorem loadConversation_preserves (P : State → Prop)
    (hP : ∀ s sender text now, P s → P (appendMessage s sender text now))
    (s : State) (id : JSString) (clock : Nat → Nat) (h : P s) :
    P (loadConversation s id clock) := by
  unfold loadConversation
  split
  · exact h
  · exact loadLoop_preserves P hP id clock _ _ s h

theorem createNewConversation_userTotal_le (browser : Browser) (s : State) (rnd : Nat → Draw)
    (created greeted : Nat) :
    userTotal (createNewConversation browser s rnd created greeted).state.conversations ≤
      userTotal s.conversations := by
  obtain ⟨msgs, hmsgs, hst⟩ := createNewConversation_state browser s rnd created greeted
  have hm : userCount msgs = 0 := by
    rcases hmsgs with rfl | rfl <;> simp [userCount, bot_ne_user]
  rw [hst]
  cases h : s.conversations.get (generateUUID rnd) with
  | none =>
    have := userTotal_set_of_none s.conversations (generateUUID rnd)
      { messages := msgs, created := created } h
    simp only [hm] at this
    simp only
    omega
  | some c0 =>
    have := userTotal_set_of_get s.conversations (generateUUID rnd)
      { messages := msgs, created := created } c0 h
    simp only [hm] at this
    simp only
    omega

theorem createNewConversation_userTotal_of_fresh (browser : Browser) (s : State)
    (rnd : Nat → Draw) (created greeted : Nat) (h : generateUUID rnd ∉ s.conversations.keys) :
    userTotal (createNewConversation browser s rnd created greeted).state.conversations =
      userTotal s.conversations := by
  obtain ⟨msgs, hmsgs, hst⟩ := createNewConversation_state browser s rnd created greeted
  have hm : userCount msgs = 0 := by
    rcases hmsgs with rfl | rfl <;> simp [userCount, bot_ne_user]
  rw [hst]
  have := userTotal_set_of_none s.conversations (generateUUID rnd)
    { messages := msgs, created := created } ((Store.get_eq_none_iff _ _).mpr h)
  simp only [hm] at this
  simp only
  omega

theorem createNewConversation_isSome (browser : Browser) (s : State) (rnd : Nat → Draw)
    (created greeted : Nat) :
    (currentConversation (createNewConversation browser s rnd created greeted).state).isSome := by
  obtain ⟨msgs, _, hst⟩ := createNewConversation_state browser s rnd created greeted
  rw [hst, currentConversation_eq_some _ (generateUUID rnd) _ rfl (generateUUID_ne_nil rnd)
      (Store.get_set_self _ _ _)]
  rfl

theorem createNewConversation_questionCount (browser : Browser) (s : State) (rnd : Nat → Draw)
    (created greeted : Nat) :
    (createNewConversation browser s rnd created greeted).state.stats.questionCount =
      s.stats.questionCount := by
  obtain ⟨msgs, _, hst⟩ := createNewConversation_state browser s rnd created greeted
  rw [hst]

theorem createNewConversation_conversationCount (browser : Browser) (s : State)
    (rnd : Nat → Draw) (created greeted : Nat) :
    (createNewConversation browser s rnd created greeted).state.stats.conversationCount =
      s.stats.conversationCount + 1 := by
  obtain ⟨msgs, _, hst⟩ := createNewConversation_state browser s rnd created greeted
  rw [hst]

/-- The ways in which the delete handler ends: the list throws after the
removal; the replacement of the deleted current conversation throws; the
replacement is made and the counter decremented; or the deleted conversation
was not current and the counter is decremented. -/
theorem deleteConversation_cases (browser : Browser) (s : State) (id : JSString)
    (rnd : Nat → Draw) (created greeted : Nat) :
    (deleteConversation browser s id rnd created greeted =
        { state := { s with conversations := s.conversations.delete id }, threw := true }) ∨
    (s.currentConversationId = some id ∧
      (deleteConversation browser s id rnd created greeted).threw = true ∧
      (deleteConversation browser s id rnd created greeted).state =
        (createNewConversation browser { s with conversations := s.conversations.delete id }
          rnd created greeted).state) ∨
    (s.currentConversationId = some id ∧
      (createNewConversation browser { s with conversations := s.conversations.delete id }
          rnd created greeted).threw = false ∧
      deleteConversation browser s id rnd created greeted =
        { state :=
            { (createNewConversation browser { s with conversations := s.conversations.delete id }
                rnd created greeted).state with
              stats :=
                { (createNewConversation browser
                    { s with conversations := s.conversations.delete id }
                    rnd created greeted).state.stats with
                  conversationCount :=
                    (createNewConversation browser
                      { s with conversations := s.conversations.delete id }
                      rnd created greeted).state.stats.conversationCount - 1 } }
          threw := false }) ∨
    (s.currentConversationId ≠ some id ∧
      deleteConversation browser s id rnd created greeted =
        { state :=
            { s with
              conversations := s.conversations.delete id
              stats := { s.stats with conversationCount := s.stats.conversationCount - 1 } }
          threw := false }) := by
  cases hlist : conversationsListThrows browser (s.conversations.delete id) with
  | true => exact Or.inl (by simp [deleteConversation, hlist])
  | false =>
    by_cases hcur : s.currentConversationId = some id
    · cases hthrew : (createNewConversation browser
          { s with conversations := s.conversations.delete id } rnd created greeted).threw with
      | true =>
        refine Or.inr (Or.inl ⟨hcur, ?_, ?_⟩)
        · simp only [deleteConversation, hlist, Bool.false_eq_true, if_false, if_pos hcur, hthrew,
            if_true]
        · simp only [deleteConversation, hlist, Bool.false_eq_true, if_false, if_pos hcur, hthrew,
            if_true]
      | false =>
        refine Or.inr (Or.inr (Or.inl ⟨hcur, rfl, ?_⟩))
        simp only [deleteConversation, hlist, Bool.false_eq_true, if_false, if_pos hcur, hthrew]
    · refine Or.inr (Or.inr (Or.inr ⟨hcur, ?_⟩))
      simp only [deleteConversation, hlist, Bool.false_eq_true, if_false, if_neg hcur]

theorem deleteConversation_questionCount (browser : Browser) (s : State) (id : JSString)
    (rnd : Nat → Draw) (created greeted : Nat) :
    (deleteConversation browser s id rnd created greeted).state.stats.questionCount =
      s.stats.questionCount := by
  rcases deleteConversation_cases browser s id rnd created greeted with
    h | ⟨_, _, h⟩ | ⟨_, _, h⟩ | ⟨_, h⟩
  · rw [h]
  · rw [h, createNewConversation_questionCount]
  · rw [h]
    simp only
    rw [createNewConversation_questionCount]
  · rw [h]

theorem deleteConversation_userTotal_le (browser : Browser) (s : State) (id : JSString)
    (rnd : Nat → Draw) (created greeted : Nat) :
    userTotal (deleteConversation browser s id rnd created greeted).state.conversations ≤
      userTotal s.conversations := by
  have h0 := userTotal_delete_le s.conversations id
  have h1 := createNewConversation_userTotal_le browser
    { s with conversations := s.conversations.delete id } rnd created greeted
  simp only at h1
  rcases deleteConversation_cases browser s id rnd created greeted with
    h | ⟨_, _, h⟩ | ⟨_, _, h⟩ | ⟨_, h⟩
  · rw [h]; exact h0
  · rw [h]; omega
  · rw [h]; simp only; omega
  · rw [h]; exact h0

theorem questionCount_step_ge (browser : Browser) (s : State) (op : Op)
    (h : (userTotal s.conversations : Int) ≤ s.stats.questionCount) :
    (userTotal (step browser s op).conversations : Int) ≤
      (step browser s op).stats.questionCount := by
  cases op with
  | create rnd created greeted =>
    have h1 := createNewConversation_userTotal_le browser s rnd created greeted
    simp only [step, createNewConversation_questionCount]
    omega
  | append sender text now =>
    have h1 := appendMessage_userTotal_le s sender text now
    have h2 := appendMessage_questionCount s sender text now
    simp only [step, h2]
    split at h1 <;> simp_all <;> omega
  | load id clock =>
    simp only [step]
    refine loadConversation_preserves
      (fun s => (userTotal s.conversations : Int) ≤ s.stats.questionCount) ?_ s id clock h
    intro s sender text now hs
    have h1 := appendMessage_userTotal_le s sender text now
    have h2 := appendMessage_questionCount s sender text now
    simp only [h2]
    split at h1 <;> simp_all <;> omega
  | delete id rnd created greeted =>
    have h1 := deleteConversation_userTotal_le browser s id rnd created greeted
    simp only [step, deleteConversation_questionCount]
    omega

theorem questionCount_step_eq (browser : Browser) (s : State) (op : Op)
    (hop : keepsQuestions s op)
    (h : s.stats.questionCount = (userTotal s.conversations : Int)) :
    (step browser s op).stats.questionCount =
      (userTotal (step browser s op).conversations : Int) := by
  cases op with
  | create rnd created greeted =>
    have h1 := createNewConversation_userTotal_of_fresh browser s rnd created greeted hop
    simp only [step, createNewConversation_questionCount, h1, h]
  | append sender text now =>
    have h1 := appendMessage_userTotal_of_some s sender text now hop
    have h2 := appendMessage_questionCount s sender text now
    simp only [step, h2, h1, h]
    split <;> simp
  | load id clock =>
    simp only [step]
    have := loadConversation_preserves
      (fun s => (currentConversation s).isSome ∧
        s.stats.questionCount = (userTotal s.conversations : Int)) ?_ s id clock ⟨hop, h⟩
    · exact this.2
    · intro s sender text now hs
      refine ⟨appendMessage_isSome s sender text now hs.1, ?_⟩
      have h1 := appendMessage_userTotal_of_some s sender text now hs.1
      have h2 := appendMessage_questionCount s sender text now
      simp only [h2, h1, hs.2]
      split <;> simp
  | delete id rnd created greeted => exact absurd hop (by simp [keepsQuestions])

/-- C1, as the code has it: in every state reachable from the initial state by
`createNewConversation`, `appendMessage`, `loadConversation` and completed
deletions, `stats.questionCount` is at least the number of `'user'` messages in
the store; and it equals that number in every state reached without a
deletion, by creations whose identifier is new and by appends and replays made
while the current conversation is in the store. -/
theorem questionCount_tracks_userTotal :
    (∀ browser s, Reachable browser (fun _ _ => True) s →
      (userTotal s.conversations : Int) ≤ s.stats.questionCount) ∧
    (∀ browser s, Reachable browser keepsQuestions s →
      s.stats.questionCount = (userTotal s.conversations : Int)) := by
  constructor
  · intro browser s hs
    induction hs with
    | init => simp [initialState, userTotal]
    | next op _ _ ih => exact questionCount_step_ge browser _ op ih
  · intro browser s hs
    induction hs with
    | init => simp [initialState, userTotal]
    | next op _ hop ih => exact questionCount_step_eq browser _ op hop ih

/-- The two parts of C1 after one creation and one question. -/
theorem questionCount_tracks_userTotal_witness :
    (userTotal (step commentBrowser (step commentBrowser initialState (.create zeroDraws 0 0))
        (.append (js "user") (js "q") 1)).conversations : Int) ≤
      (step commentBrowser (step commentBrowser initialState (.create zeroDraws 0 0))
        (.append (js "user") (js "q") 1)).stats.questionCount ∧
    (step commentBrowser (step commentBrowser initialState (.create zeroDraws 0 0))
        (.append (js "user") (js "q") 1)).stats.questionCount =
      (userTotal (step commentBrowser (step commentBrowser initialState (.create zeroDraws 0 0))
        (.append (js "user") (js "q") 1)).conversations : Int) :=
  ⟨questionCount_tracks_userTotal.1 _ _
      (Reachable.next _ (Reachable.next _ Reachable.init trivial) trivial),
    questionCount_tracks_userTotal.2 _ _
      (Reachable.next _ (Reachable.next _ Reachable.init (by decide)) (by decide))⟩

/-- C1 as stated fails: after a creation, one question and the deletion of
that conversation, the store holds no `'user'` message and
`stats.questionCount` is 1. -/
theorem questionCount_ne_userTotal_after_delete :
    Reachable commentBrowser chatOp (run commentBrowser initialState askThenDelete) ∧
    (run commentBrowser initialState askThenDelete).stats.questionCount = 1 ∧
    userTotal (run commentBrowser initialState askThenDelete).conversations = 0 := by
  refine ⟨?_, by decide, by decide⟩
  show Reachable commentBrowser chatOp
    (step commentBrowser (step commentBrowser (step commentBrowser initialState
      (.create zeroDraws 0 0)) (.append (js "user") (js "q") 1))
      (.delete (generateUUID zeroDraws) oneDraws 2 2))
  exact Reachable.next _ (Reachable.next _ (Reachable.next _ Reachable.init (by decide))
    (by decide)) (by decide)

/-! ## Keys of the store along a run -/

theorem Store.length_keys (st : Store) : st.keys.length = st.length := by
  simp [Store.keys]

theorem Store.set_append_self (st : Store) (id : JSString) (c c' : Conversation)
    (h : id ∉ st.keys) : (st ++ [(id, c)]).set id c' = st ++ [(id, c')] := by
  induction st with
  | nil => simp [Store.set]
  | cons e rest ih =>
    obtain ⟨k, v⟩ := e
    simp only [Store.keys, List.map_cons, List.mem_cons, not_or] at h
    have hk : ¬ k = id := fun hc => h.1 hc.symm
    simp [Store.set, hk, ih h.2]

theorem Store.keys_delete_sublist (st : Store) (id : JSString) :
    (st.delete id).keys.Sublist st.keys := by
  simp only [Store.keys, Store.delete]
  exact (List.filter_sublist st).map _

theorem Store.length_delete (st : Store) (id : JSString) (hmem : id ∈ st.keys)
    (hnd : st.keys.Nodup) : (st.delete id).length + 1 = st.length := by
  induction st with
  | nil => simp [Store.keys] at hmem
  | cons e rest ih =>
    obtain ⟨k, v⟩ := e
    simp only [Store.keys, List.map_cons, List.nodup_cons, List.mem_cons] at hmem hnd
    by_cases hk : k = id
    · subst hk
      have hrest : Store.delete rest k = rest := by
        simp only [Store.delete, List.filter_eq_self, decide_eq_true_eq]
        intro e he hc
        exact hnd.1 (List.mem_map.mpr ⟨e, he, hc⟩)
      have : Store.delete ((k, v) :: rest) k = Store.delete rest k := by
        simp [Store.delete]
      rw [this, hrest]
      simp
    · have hmem' : id ∈ Store.keys rest := by
        rcases hmem with h | h
        · exact absurd h.symm hk
        · exact h
      have := ih hmem' hnd.2
      have e2 : Store.delete ((k, v) :: rest) id = (k, v) :: Store.delete rest id := by
        simp [Store.delete, hk]
      rw [e2]
      simp only [List.length_cons]
      omega

theorem createNewConversation_of_fresh (browser : Browser) (s : State) (rnd : Nat → Draw)
    (created greeted : Nat) (h : generateUUID rnd ∉ s.conversations.keys) :
    ∃ msgs : List Message,
      (createNewConversation browser s rnd created greeted).state.conversations =
        s.conversations ++ [(generateUUID rnd, { messages := msgs, created := created })] := by
  obtain ⟨msgs, _, hst⟩ := createNewConversation_state browser s rnd created greeted
  exact ⟨msgs, by rw [hst]; exact Store.set_of_not_mem _ _ _ h⟩

theorem createNewConversation_mem_keys (browser : Browser) (s : State) (rnd : Nat → Draw)
    (created greeted : Nat) (k : JSString) :
    k ∈ (createNewConversation browser s rnd created greeted).state.conversations.keys ↔
      k = generateUUID rnd ∨ k ∈ s.conversations.keys := by
  obtain ⟨msgs, _, hst⟩ := createNewConversation_state browser s rnd created greeted
  rw [hst]
  exact Store.mem_keys_set _ _ _ _

theorem deleteConversation_mem_keys (browser : Browser) (s : State) (id : JSString)
    (rnd : Nat → Draw) (created greeted : Nat) (k : JSString)
    (h : k ∈ (deleteConversation browser s id rnd created greeted).state.conversations.keys) :
    k = generateUUID rnd ∨ (k ≠ id ∧ k ∈ s.conversations.keys) := by
  have hcreate := createNewConversation_mem_keys browser
    { s with conversations := s.conversations.delete id } rnd created greeted k
  rcases deleteConversation_cases browser s id rnd created greeted with
    hd | ⟨_, _, hd⟩ | ⟨_, _, hd⟩ | ⟨_, hd⟩
  · rw [hd] at h
    exact Or.inr ((Store.mem_keys_delete _ _ _).mp h)
  · rw [hd] at h
    rcases hcreate.mp h with h' | h'
    · exact Or.inl h'
    · exact Or.inr ((Store.mem_keys_delete _ _ _).mp h')
  · rw [hd] at h
    rcases hcreate.mp h with h' | h'
    · exact Or.inl h'
    · exact Or.inr ((Store.mem_keys_delete _ _ _).mp h')
  · rw [hd] at h
    exact Or.inr ((Store.mem_keys_delete _ _ _).mp h)

theorem step_not_mem_keys (browser : Browser) (id : JSString) (s : State) (op : Op)
    (hop : avoids id op) (h : id ∉ s.conversations.keys) :
    id ∉ (step browser s op).conversations.keys := by
  cases op with
  | create rnd created greeted =>
    simp only [step, createNewConversation_mem_keys, not_or]
    exact ⟨fun hc => hop hc.symm, h⟩
  | append sender text now => simpa [step, appendMessage_keys] using h
  | load id' clock =>
    simp only [step]
    refine loadConversation_preserves (fun s => id ∉ s.conversations.keys) ?_ s id' clock h
    intro s sender text now hs
    simpa [appendMessage_keys] using hs
  | delete id' rnd created greeted =>
    intro hc
    rcases deleteConversation_mem_keys browser s id' rnd created greeted id hc with h' | h'
    · exact hop h'.symm
    · exact h h'.2

theorem run_not_mem_keys (browser : Browser) (id : JSString) (ops : List Op) :
    ∀ s : State, (∀ op ∈ ops, avoids id op) → id ∉ s.conversations.keys →
      id ∉ (run browser s ops).conversations.keys := by
  induction ops with
  | nil => intro s _ h; simpa [run] using h
  | cons op ops ih =>
    intro s hops h
    simp only [run, List.foldl_cons]
    exact ih (step browser s op) (fun o ho => hops o (List.mem_cons_of_mem _ ho))
      (step_not_mem_keys browser id s op (hops op (List.mem_cons_self _ _)) h)

/-- The delete handler of a current conversation that ran its `try` block to
the end: the replacement was made, with its greeting, and the counter
decremented. -/
theorem deleteConversation_of_current_completed (browser : Browser) (s : State) (id : JSString)
    (rnd : Nat → Draw) (created greeted : Nat) (hcur : s.currentConversationId = some id)
    (hok : (deleteConversation browser s id rnd created greeted).threw = false) :
    (deleteConversation browser s id rnd created greeted).state =
      { currentConversationId := some (generateUUID rnd)
        conversations :=
          (s.conversations.delete id).set (generateUUID rnd)
            { messages := [{ sender := js "bot", text := greeting, timestamp := greeted }]
              created := created }
        papers := s.papers
        stats := s.stats } := by
  rcases deleteConversation_cases browser s id rnd created greeted with
    hd | ⟨_, ht, _⟩ | ⟨_, hc, hd⟩ | ⟨hne, _⟩
  · rw [hd] at hok; cases hok
  · rw [ht] at hok; cases hok
  · rw [hd]
    have hst := createNewConversation_of_not_threw browser
      { s with conversations := s.conversations.delete id } rnd created greeted hc
    simp only [hst]
    simp
  · exact absurd hcur hne

/-! ## C3: deleting the current conversation -/

/-- C3, as the code has it: when the conversation `id` is in the store and is
current, the identifier generated for the replacement is not a key of the
store, and the delete handler runs its `try` block to the end (no rebuilding
of the conversations list throws), the completed deletion of `id` leaves the
old store minus `id` plus one new entry, which is current and holds the
greeting; the counter is as before; `id` is not a key afterwards, nor after any
further operations that do not generate the identifier `id` again. -/
theorem deleteConversation_current (browser : Browser) (s : State) (id : JSString)
    (rnd : Nat → Draw) (created greeted : Nat) (hcur : s.currentConversationId = some id)
    (hmem : id ∈ s.conversations.keys) (hfresh : generateUUID rnd ∉ s.conversations.keys)
    (hok : (deleteConversation browser s id rnd created greeted).threw = false) :
    (deleteConversation browser s id rnd created greeted).state.conversations =
      s.conversations.delete id ++
        [(generateUUID rnd,
          { messages := [{ sender := js "bot", text := greeting, timestamp := greeted }]
            created := created })] ∧
    (deleteConversation browser s id rnd created greeted).state.currentConversationId =
      some (generateUUID rnd) ∧
    (deleteConversation browser s id rnd created greeted).state.stats.conversationCount =
      s.stats.conversationCount ∧
    id ∉ (deleteConversation browser s id rnd created greeted).state.conversations.keys ∧
    ∀ ops : List Op, (∀ op ∈ ops, avoids id op) →
      id ∉ (run browser (deleteConversation browser s id rnd created greeted).state
        ops).conversations.keys := by
  have hne : generateUUID rnd ≠ id := fun hc => hfresh (hc ▸ hmem)
  have hfresh' : generateUUID rnd ∉ (s.conversations.delete id).keys := fun hc =>
    hfresh ((Store.keys_delete_sublist _ _).subset hc)
  have hst := deleteConversation_of_current_completed browser s id rnd created greeted hcur hok
  have hconv : (deleteConversation browser s id rnd created greeted).state.conversations =
      s.conversations.delete id ++
        [(generateUUID rnd,
          { messages := [{ sender := js "bot", text := greeting, timestamp := greeted }]
            created := created })] := by
    rw [hst]
    exact Store.set_of_not_mem _ _ _ hfresh'
  have hnot : id ∉ (deleteConversation browser s id rnd created greeted).state.conversations.keys := by
    rw [hconv]
    simp only [Store.keys, List.map_append, List.map_cons, List.map_nil, List.mem_append,
      List.mem_singleton, not_or]
    refine ⟨fun hc => ?_, fun hc => hne hc.symm⟩
    have := (Store.mem_keys_delete s.conversations id id).mp hc
    exact this.1 rfl
  refine ⟨hconv, ?_, ?_, hnot, fun ops hops => run_not_mem_keys browser id ops _ hops hnot⟩
  · rw [hst]
  · rw [hst]

/-- C3's amended statement at the deletion of the only conversation, with
different draws for the replacement. -/
theorem deleteConversation_current_witness :
    (deleteConversation commentBrowser (run commentBrowser initialState createOnce)
        (generateUUID zeroDraws) oneDraws 1 1).state.conversations =
      (run commentBrowser initialState createOnce).conversations.delete (generateUUID zeroDraws) ++
        [(generateUUID oneDraws,
          { messages := [{ sender := js "bot", text := greeting, timestamp := 1 }]
            created := 1 })] ∧
    (deleteConversation commentBrowser (run commentBrowser initialState createOnce)
        (generateUUID zeroDraws) oneDraws 1 1).state.currentConversationId =
      some (generateUUID oneDraws) ∧
    (deleteConversation commentBrowser (run commentBrowser initialState createOnce)
        (generateUUID zeroDraws) oneDraws 1 1).state.stats.conversationCount =
      (run commentBrowser initialState createOnce).stats.conversationCount ∧
    generateUUID zeroDraws ∉
      (deleteConversation commentBrowser (run commentBrowser initialState createOnce)
        (generateUUID zeroDraws) oneDraws 1 1).state.conversations.keys ∧
    ∀ ops : List Op, (∀ op ∈ ops, avoids (generateUUID zeroDraws) op) →
      generateUUID zeroDraws ∉
        (run commentBrowser
          (deleteConversation commentBrowser (run commentBrowser initialState createOnce)
            (generateUUID zeroDraws) oneDraws 1 1).state ops).conversations.keys :=
  deleteConversation_current commentBrowser (run commentBrowser initialState createOnce)
    (generateUUID zeroDraws) oneDraws 1 1 (by decide) (by decide) (by decide) (by decide)

/-- C3 as stated fails: when the draws of the replacement repeat the draws
that made the deleted identifier, the delete handler runs to its end and the
deleted identifier is a key of the store right after the deletion. -/
theorem deleted_id_reappears :
    Reachable commentBrowser chatOp (run commentBrowser initialState createOnce) ∧
    (run commentBrowser initialState createOnce).currentConversationId =
      some (generateUUID zeroDraws) ∧
    (deleteConversation commentBrowser (run commentBrowser initialState createOnce)
      (generateUUID zeroDraws) zeroDraws 1 1).threw = false ∧
    generateUUID zeroDraws ∈
      (deleteConversation commentBrowser (run commentBrowser initialState createOnce)
        (generateUUID zeroDraws) zeroDraws 1 1).state.conversations.keys := by
  refine ⟨?_, by decide, by decide, by decide⟩
  show Reachable commentBrowser chatOp (step commentBrowser initialState (.create zeroDraws 0 0))
  exact Reachable.next _ Reachable.init (by decide)

/-- The throw that the amended C3 and C9 leave out: with the question `<!--`
in the second conversation, whose item then has no delete button, the deletion
of the first, current conversation removes it, throws when the list is
rebuilt, and so makes no replacement and leaves the counter at 2 with one
conversation in the store. -/
theorem deleteConversation_throw_example :
    (deleteConversation commentBrowser askCommentInSecond (generateUUID zeroDraws) twoDraws 9
      9).threw = true ∧
    (deleteConversation commentBrowser askCommentInSecond (generateUUID zeroDraws) twoDraws 9
      9).state.conversations.keys = [generateUUID oneDraws] ∧
    (deleteConversation commentBrowser askCommentInSecond (generateUUID zeroDraws) twoDraws 9
      9).state.currentConversationId = some (generateUUID zeroDraws) ∧
    (deleteConversation commentBrowser askCommentInSecond (generateUUID zeroDraws) twoDraws 9
      9).state.stats.conversationCount = 2 := by
  decide

/-! ## C9: the conversation counter -/

theorem conversationCount_step (browser : Browser) (s : State) (op : Op)
    (hop : freshIds browser s op)
    (h : s.conversations.keys.Nodup ∧ s.stats.conversationCount = (s.conversations.length : Int)) :
    (step browser s op).conversations.keys.Nodup ∧
      (step browser s op).stats.conversationCount =
        ((step browser s op).conversations.length : Int) := by
  obtain ⟨hnd, hcount⟩ := h
  cases op with
  | create rnd created greeted =>
    have hop' : generateUUID rnd ∉ s.conversations.keys := hop
    obtain ⟨msgs, hconv⟩ := createNewConversation_of_fresh browser s rnd created greeted hop'
    simp only [step, hconv, createNewConversation_conversationCount, hcount]
    refine ⟨?_, by simp⟩
    simp only [Store.keys, List.map_append, List.map_cons, List.map_nil]
    exact List.Nodup.append hnd (List.nodup_singleton _) (by simpa [Store.keys] using hop')
  | append sender text now =>
    have hk := appendMessage_keys s sender text now
    have hl : (appendMessage s sender text now).conversations.length = s.conversations.length := by
      rw [← Store.length_keys, hk, Store.length_keys]
    simp only [step, hk, hl, appendMessage_conversationCount]
    exact ⟨hnd, hcount⟩
  | load id clock =>
    simp only [step]
    have := loadConversation_preserves
      (fun t => t.conversations.keys = s.conversations.keys ∧
        t.stats.conversationCount = s.stats.conversationCount) ?_ s id clock ⟨rfl, rfl⟩
    · obtain ⟨hk, hc⟩ := this
      rw [hk, hc, ← Store.length_keys, hk, Store.length_keys]
      exact ⟨hnd, hcount⟩
    · intro t sender text now ht
      rw [appendMessage_keys, appendMessage_conversationCount]
      exact ht
  | delete id rnd created greeted =>
    obtain ⟨hmem, hfresh, hok⟩ := hop
    have hnd' : (s.conversations.delete id).keys.Nodup :=
      hnd.sublist (Store.keys_delete_sublist _ _)
    have hlen := Store.length_delete s.conversations id hmem hnd
    simp only [step]
    rcases deleteConversation_cases browser s id rnd created greeted with
      hd | ⟨_, ht, _⟩ | ⟨hcur, _, hd⟩ | ⟨_, hd⟩
    · rw [hd] at hok; cases hok
    · rw [ht] at hok; cases hok
    · obtain ⟨msgs, hconv⟩ := createNewConversation_of_fresh browser
        { s with conversations := s.conversations.delete id } rnd created greeted (hfresh hcur)
      have hc := createNewConversation_conversationCount browser
        { s with conversations := s.conversations.delete id } rnd created greeted
      rw [hd]
      simp only [hconv, hc, hcount]
      refine ⟨?_, ?_⟩
      · simp only [Store.keys, List.map_append, List.map_cons, List.map_nil]
        exact List.Nodup.append hnd' (List.nodup_singleton _)
          (by simpa [Store.keys] using hfresh hcur)
      · simp only [List.length_append, List.length_singleton]
        push_cast
        omega
    · rw [hd]
      simp only [hcount]
      refine ⟨hnd', ?_⟩
      omega

/-- C9, as the code has it: in every state reachable from the initial state by
creations whose generated identifier is not already a key, by completed
deletions of conversations that are in the store whose handler runs its `try`
block to the end (the replacement of a deleted current conversation included,
with an identifier that is not a key of the remaining store), and by appends
and replays, the keys of the store are distinct and `stats.conversationCount`
is the number of conversations in the store. -/
theorem conversationCount_eq_size (browser : Browser) (s : State)
    (h : Reachable browser (freshIds browser) s) :
    s.conversations.keys.Nodup ∧
      s.stats.conversationCount = (s.conversations.length : Int) := by
  induction h with
  | init => simp [initialState, Store.keys]
  | next op _ hop ih => exact conversationCount_step browser _ op hop ih

/-- C9's amended statement after a creation, a question and the deletion of
the current conversation. -/
theorem conversationCount_eq_size_witness :
    (run commentBrowser initialState askThenDelete).conversations.keys.Nodup ∧
    (run commentBrowser initialState askThenDelete).stats.conversationCount =
      ((run commentBrowser initialState askThenDelete).conversations.length : Int) :=
  conversationCount_eq_size commentBrowser
    (step commentBrowser (step commentBrowser (step commentBrowser initialState
      (.create zeroDraws 0 0)) (.append (js "user") (js "q") 1))
      (.delete (generateUUID zeroDraws) oneDraws 2 2))
    (Reachable.next _ (Reachable.next _ (Reachable.next _ Reachable.init (by decide))
      (by decide)) (by decide))

/-- C9 as stated fails: two creations from the same draws leave one
conversation in the store and `stats.conversationCount` at 2. -/
theorem conversationCount_ne_size_on_collision :
    Reachable commentBrowser chatOp (run commentBrowser initialState createTwice) ∧
    (run commentBrowser initialState createTwice).stats.conversationCount = 2 ∧
    (run commentBrowser initialState createTwice).conversations.length = 1 := by
  refine ⟨?_, by decide, by decide⟩
  show Reachable commentBrowser chatOp
    (step commentBrowser (step commentBrowser initialState (.create zeroDraws 0 0))
      (.create zeroDraws 1 1))
  exact Reachable.next _ (Reachable.next _ Reachable.init (by decide)) (by decide)

/-! ## C10: the frame of `appendMessage` -/

theorem currentConversation_eq_none_of_not_mem (s : State)
    (h : ∀ id, s.currentConversationId = some id → id ∉ s.conversations.keys) :
    currentConversation s = none := by
  unfold currentConversation
  cases hc : s.currentConversationId with
  | none => rfl
  | some id =>
    have := (Store.get_eq_none_iff _ _).mpr (h id hc)
    simp [this]

/-- C10, as the code has it: when the current conversation identifier is not a
key of the store (or is `null`), `appendMessage` leaves the conversations, the
current identifier, the papers, `paperCount` and `conversationCount` unchanged
and changes `questionCount` only for the sender `'user'`, by one; when the
current conversation is in the store, exactly one message with the given
sender (`'user'` or `'bot'`) and text is added at the end of its list, and no
other conversation and no key changes. -/
theorem appendMessage_frame (s : State) (sender text : JSString) (now : Nat) :
    ((∀ id, s.currentConversationId = some id → id ∉ s.conversations.keys) →
      (appendMessage s sender text now).conversations = s.conversations ∧
      (appendMessage s sender text now).currentConversationId = s.currentConversationId ∧
      (appendMessage s sender text now).papers = s.papers ∧
      (appendMessage s sender text now).stats.paperCount = s.stats.paperCount ∧
      (appendMessage s sender text now).stats.conversationCount = s.stats.conversationCount ∧
      (appendMessage s sender text now).stats.questionCount =
        s.stats.questionCount + (if sender = js "user" then 1 else 0)) ∧
    (∀ id c, s.currentConversationId = some id → id ≠ [] →
      s.conversations.get id = some c → (sender = js "user" ∨ sender = js "bot") →
      (appendMessage s sender text now).conversations =
        s.conversations.set id
          { c with messages :=
              c.messages ++ [{ sender := sender, text := text, timestamp := now }] } ∧
      (appendMessage s sender text now).conversations.get id =
        some { c with messages :=
                c.messages ++ [{ sender := sender, text := text, timestamp := now }] } ∧
      (∀ k, k ≠ id →
        (appendMessage s sender text now).conversations.get k = s.conversations.get k) ∧
      (appendMessage s sender text now).conversations.keys = s.conversations.keys) := by
  constructor
  · intro h
    have hnone := currentConversation_eq_none_of_not_mem s h
    rw [appendMessage_eq]
    by_cases hs : sender = js "user"
    · simp [hs, countQuestion, pushMessage_of_none _ _ hnone]
    · simp [hs, pushMessage_of_none _ _ hnone]
  · intro id c hcur hne hget hsender
    have hsome := currentConversation_eq_some s id c hcur hne hget
    have hconv : (appendMessage s sender text now).conversations =
        s.conversations.set id
          { c with messages :=
              c.messages ++ [{ sender := sender, text := text, timestamp := now }] } := by
      rw [appendMessage_eq]
      rcases hsender with hs | hs
      · simp [hs, countQuestion, pushMessage_of_some _ _ id c hsome]
      · simp [hs, bot_ne_user, pushMessage_of_some _ _ id c hsome]
    refine ⟨hconv, ?_, ?_, appendMessage_keys s sender text now⟩
    · rw [hconv]
      exact Store.get_set_self _ _ _
    · intro k hk
      rw [hconv]
      exact Store.get_set_of_ne _ _ _ _ hk

/-- Both parts of C10's amended statement for a question: in the initial
state, where there is no current conversation, and right after a creation. -/
theorem appendMessage_frame_witness :
    (appendMessage initialState (js "user") (js "q") 1).conversations = [] ∧
    (appendMessage initialState (js "user") (js "q") 1).stats.questionCount = 0 + 1 ∧
    (appendMessage (run commentBrowser initialState createOnce) (js "user") (js "q") 1).conversations.get
        (generateUUID zeroDraws) =
      some { messages := [{ sender := js "bot", text := greeting, timestamp := 0 },
                          { sender := js "user", text := js "q", timestamp := 1 }]
             created := 0 } := by
  have h1 := (appendMessage_frame initialState (js "user") (js "q") 1).1
    (by intro id h; cases h)
  have h2 := (appendMessage_frame (run commentBrowser initialState createOnce) (js "user") (js "q") 1).2
    (generateUUID zeroDraws)
    { messages := [{ sender := js "bot", text := greeting, timestamp := 0 }], created := 0 }
    (by decide) (by decide) (by decide) (Or.inl rfl)
  exact ⟨h1.1, by simpa using h1.2.2.2.2.2, h2.2.1⟩

/-- C10 as stated fails for the sender `'user'`: in a state whose current
identifier belongs to a deleted conversation and is not a key of the store,
`appendMessage('user', ...)` stores nothing and still takes
`stats.questionCount` from 1 to 2. -/
theorem appendMessage_user_counts_without_conversation :
    staleCurrent.currentConversationId = some (generateUUID zeroDraws) ∧
    generateUUID zeroDraws ∉ staleCurrent.conversations.keys ∧
    (appendMessage staleCurrent (js "user") (js "q2") 9).conversations =
      staleCurrent.conversations ∧
    staleCurrent.stats.questionCount = 1 ∧
    (appendMessage staleCurrent (js "user") (js "q2") 9).stats.questionCount = 2 := by
  decide

/-! ## C6: `sendMessage` on blank input -/

theorem trim_eq_nil_iff (t : JSString) : trim t = [] ↔ ∀ u ∈ t, isWhiteSpace u = true := by
  unfold trim
  rw [List.rdropWhile_eq_nil_iff]
  constructor
  · intro h
    cases hd : t.dropWhile isWhiteSpace with
    | nil => exact List.dropWhile_eq_nil_iff.mp hd
    | cons a l =>
      have ha := h a (by rw [hd]; exact List.mem_cons_self _ _)
      have hna := List.head_dropWhile_not isWhiteSpace t (by rw [hd]; simp)
      simp only [hd, List.head_cons] at hna
      rw [ha] at hna
      cases hna
  · intro h
    rw [List.dropWhile_eq_nil_iff.mpr h]
    intro x hx
    cases hx

/-- C6: the trimmed chat input is empty exactly when the input consists of
white space only (or is empty), and then `sendMessage` returns at once: the
globals (conversations, current identifier, stats) and the input are as before
and no request is sent to `/ask`. -/
theorem sendMessage_blank (s : State) (chatInput : JSString) (now : Nat) :
    (trim chatInput = [] ↔ ∀ u ∈ chatInput, isWhiteSpace u = true) ∧
    ((∀ u ∈ chatInput, isWhiteSpace u = true) →
      sendMessage s chatInput now = { state := s, chatInput := chatInput, request := none }) := by
  refine ⟨trim_eq_nil_iff chatInput, fun h => ?_⟩
  simp [sendMessage, (trim_eq_nil_iff chatInput).mpr h]

/-- C6 for an input of a space, a tab and a line feed after one creation. -/
theorem sendMessage_blank_witness :
    sendMessage (run commentBrowser initialState createOnce) (js " \t\n") 5 =
      { state := run commentBrowser initialState createOnce, chatInput := js " \t\n", request := none } :=
  (sendMessage_blank (run commentBrowser initialState createOnce) (js " \t\n") 5).2 (by decide)

/-! ## C7 and C8: `uploadPaper` -/

theorem uploadPaper_of_valid (browser : Browser) (s : State) (v : UploadView) (n : Nat)
    (outcome : UploadOutcome) (file : File) (h : validateUpload v.selection = .ok file) :
    uploadPaper browser s v n outcome =
      { state := (uploadResolve browser s (progressTick^[n] (beginUpload v)) outcome).1
        view := (uploadResolve browser s (progressTick^[n] (beginUpload v)) outcome).2
        alert := none, requests := 1 } := by
  simp [uploadPaper, h, beginUpload]

theorem progressTick_failed (v : UploadView) : (progressTick v).failed = v.failed := by
  unfold progressTick
  split <;> rfl

/-- C7 fails on the code: `updatePapersTable()` runs between `papers.push` and
`stats.paperCount++` and throws when a row has lost its buttons to the text of
a record.  For the record titled `<!--` the upload that resolved with a
success status ends with the record appended, `stats.paperCount` still 0 and
the bar marked failed.  For every successful upload of a PDF the bar is set to
100%, one request is sent and `papers` is the old list with the record
appended; `stats.paperCount` grows by exactly 1 when the table is rebuilt
without a throw, and stays as it was when it throws. -/
theorem uploadPaper_count_skipped_on_throw :
    ((uploadPaper commentBrowser initialState (idleView (some [pdfFile])) 3
        (.resolved true (.ok (samplePaper (js "p1") (js "<!--"))))).state.papers =
      [samplePaper (js "p1") (js "<!--")] ∧
    (uploadPaper commentBrowser initialState (idleView (some [pdfFile])) 3
        (.resolved true (.ok (samplePaper (js "p1") (js "<!--"))))).state.stats.paperCount = 0 ∧
    (uploadPaper commentBrowser initialState (idleView (some [pdfFile])) 3
        (.resolved true (.ok (samplePaper (js "p1") (js "<!--"))))).view.failed = true ∧
    (uploadPaper commentBrowser initialState (idleView (some [pdfFile])) 3
        (.resolved true (.ok (samplePaper (js "p1") (js "<!--"))))).view.progressWidth =
      100) ∧
    (∀ (browser : Browser) (s : State) (v : UploadView) (ticks : Nat) (file : File)
      (rest : List File) (p : Paper),
      v.selection = some (file :: rest) → file.type = js "application/pdf" →
      (uploadPaper browser s v ticks (.resolved true (.ok p))).view.progressWidth = 100 ∧
      (uploadPaper browser s v ticks (.resolved true (.ok p))).state.papers = s.papers ++ [p] ∧
      (uploadPaper browser s v ticks (.resolved true (.ok p))).requests = 1 ∧
      (uploadPaper browser s v ticks (.resolved true (.ok p))).state.conversations =
        s.conversations ∧
      (uploadPaper browser s v ticks (.resolved true (.ok p))).state.currentConversationId =
        s.currentConversationId ∧
      (uploadPaper browser s v ticks (.resolved true (.ok p))).state.stats.conversationCount =
        s.stats.conversationCount ∧
      (uploadPaper browser s v ticks (.resolved true (.ok p))).state.stats.questionCount =
        s.stats.questionCount ∧
      (papersTableThrows browser (s.papers ++ [p]) = false →
        (uploadPaper browser s v ticks (.resolved true (.ok p))).state.stats.paperCount =
          s.stats.paperCount + 1 ∧
        (uploadPaper browser s v ticks (.resolved true (.ok p))).view.failed = v.failed) ∧
      (papersTableThrows browser (s.papers ++ [p]) = true →
        (uploadPaper browser s v ticks (.resolved true (.ok p))).state.stats.paperCount =
          s.stats.paperCount ∧
        (uploadPaper browser s v ticks (.resolved true (.ok p))).view.failed = true)) := by
  refine ⟨by decide, ?_⟩
  intro browser s v ticks file rest p hsel htype
  have hv : validateUpload v.selection = .ok file := by simp [validateUpload, hsel, htype]
  rw [uploadPaper_of_valid browser s v ticks _ file hv]
  have hfailed : ∀ n, (progressTick^[n] (beginUpload v)).failed = v.failed := by
    intro n
    induction n with
    | zero => rfl
    | succ n ih => rw [Function.iterate_succ_apply', progressTick_failed, ih]
  cases hthrow : papersTableThrows browser (s.papers ++ [p]) with
  | true => simp [uploadResolve, hthrow, uploadFailed]
  | false => simp [uploadResolve, hthrow, hfailed]

/-- C8: when no file is selected, or the first selected file has a type other
than `application/pdf`, `uploadPaper` shows an alert and returns: no request is
sent, and the globals (the papers list and `stats.paperCount` among them) and
the form are as before. -/
theorem uploadPaper_invalid (browser : Browser) (s : State) (v : UploadView) (ticks : Nat)
    (outcome : UploadOutcome)
    (h : v.selection = none ∨ v.selection = some [] ∨
      ∃ file rest, v.selection = some (file :: rest) ∧ file.type ≠ js "application/pdf") :
    (uploadPaper browser s v ticks outcome).requests = 0 ∧
    (uploadPaper browser s v ticks outcome).state = s ∧
    (uploadPaper browser s v ticks outcome).view = v ∧
    (uploadPaper browser s v ticks outcome).alert.isSome = true := by
  rcases h with h | h | ⟨file, rest, h, ht⟩
  · simp [uploadPaper, validateUpload, h]
  · simp [uploadPaper, validateUpload, h]
  · simp [uploadPaper, validateUpload, h, ht]

/-- C8 in the scenario of the specification: a file of type `text/plain`. -/
theorem uploadPaper_invalid_witness :
    (uploadPaper commentBrowser initialState (idleView (some [textFile])) 3
      (.resolved true (.ok (samplePaper (js "p1") (js "T"))))).requests = 0 ∧
    (uploadPaper commentBrowser initialState (idleView (some [textFile])) 3
      (.resolved true (.ok (samplePaper (js "p1") (js "T"))))).state = initialState ∧
    (uploadPaper commentBrowser initialState (idleView (some [textFile])) 3
      (.resolved true (.ok (samplePaper (js "p1") (js "T"))))).view =
        idleView (some [textFile]) ∧
    (uploadPaper commentBrowser initialState (idleView (some [textFile])) 3
      (.resolved true (.ok (samplePaper (js "p1") (js "T"))))).alert.isSome = true :=
  uploadPaper_invalid commentBrowser initialState (idleView (some [textFile])) 3
    (.resolved true (.ok (samplePaper (js "p1") (js "T"))))
    (Or.inr (Or.inr ⟨textFile, [], rfl, by decide⟩))

/-! ## C2: the recent papers -/

theorem codeUnitCompare_antisymm : ∀ a b : JSString,
    codeUnitCompare a b ≤ 0 ↔ 0 ≤ codeUnitCompare b a := by
  intro a
  induction a with
  | nil => intro b; cases b <;> simp [codeUnitCompare]
  | cons x xs ih =>
    intro b
    cases b with
    | nil => simp [codeUnitCompare]
    | cons y ys =>
      simp only [codeUnitCompare]
      split_ifs <;> first | omega | simp | exact ih ys

theorem codeUnitCompare_trans : ∀ a b c : JSString,
    codeUnitCompare a b ≤ 0 → codeUnitCompare b c ≤ 0 → codeUnitCompare a c ≤ 0 := by
  intro a
  induction a with
  | nil => intro b c _ _; cases c <;> simp [codeUnitCompare]
  | cons x xs ih =>
    intro b c hab hbc
    cases b with
    | nil => simp [codeUnitCompare] at hab
    | cons y ys =>
      cases c with
      | nil => simp [codeUnitCompare] at hbc
      | cons z zs =>
        simp only [codeUnitCompare] at hab hbc ⊢
        split_ifs at hab hbc ⊢ <;> first | omega | simp | exact ih ys zs hab hbc

theorem filter_orderedInsert_tied {α : Type} (r : α → α → Prop) [DecidableRel r]
    (cls : α → Bool) (htied : ∀ x y, cls x = true → cls y = true → r x y) (a : α) :
    ∀ l : List α, (l.orderedInsert r a).filter cls =
      if cls a = true then a :: l.filter cls else l.filter cls := by
  intro l
  induction l with
  | nil => by_cases ha : cls a = true <;> simp [ha]
  | cons b l ih =>
    by_cases hr : r a b
    · by_cases ha : cls a = true <;> simp [List.orderedInsert, hr, ha, List.filter_cons]
    · simp only [List.orderedInsert, hr, if_false, List.filter_cons, ih]
      by_cases ha : cls a = true
      · have hb : ¬ cls b = true := fun hb => hr (htied a b ha hb)
        simp [ha, hb]
      · simp [ha]

theorem filter_insertionSort_tied {α : Type} (r : α → α → Prop) [DecidableRel r]
    (cls : α → Bool) (htied : ∀ x y, cls x = true → cls y = true → r x y) :
    ∀ l : List α, (l.insertionSort r).filter cls = l.filter cls := by
  intro l
  induction l with
  | nil => simp
  | cons a l ih =>
    simp only [List.insertionSort, filter_orderedInsert_tied r cls htied, ih, List.filter_cons]

theorem updateRecentPapersList_eq (localeCompare : JSString → JSString → Int)
    (papers : List Paper) :
    updateRecentPapersList localeCompare papers = recentPapers localeCompare papers := by
  unfold updateRecentPapersList
  split
  · rename_i h
    rw [List.length_eq_zero.mp h]
    simp [recentPapers, sort]
  · rfl

/-- C2, as the code has it: for a collation `localeCompare` that is a
consistent comparison, the papers that `updateRecentPapersList` renders are
the first five entries (all `n` of them when `n` is at most five) of the one
arrangement of the `n` papers that is in descending order of identifier under
that collation and keeps papers of equal rank in insertion order: with the
papers left out after them, they are a permutation of the list, every entry
ranks at least as high as every later entry, and the papers of each rank appear
in the order in which they were added. -/
theorem updateRecentPapersList_spec (localeCompare : JSString → JSString → Int)
    (hanti : ∀ a b, localeCompare a b ≤ 0 ↔ 0 ≤ localeCompare b a)
    (htrans : ∀ a b c, localeCompare a b ≤ 0 → localeCompare b c ≤ 0 → localeCompare a c ≤ 0)
    (papers : List Paper) :
    (updateRecentPapersList localeCompare papers).length = min 5 papers.length ∧
    ∃ rest : List Paper,
      (updateRecentPapersList localeCompare papers ++ rest).Perm papers ∧
      (updateRecentPapersList localeCompare papers ++ rest).Pairwise
        (fun a b => 0 ≤ localeCompare a.id b.id) ∧
      ∀ k : JSString,
        (updateRecentPapersList localeCompare papers ++ rest).filter
            (fun p => decide (localeCompare p.id k = 0)) =
          papers.filter (fun p => decide (localeCompare p.id k = 0)) := by
  rw [updateRecentPapersList_eq]
  have htotal : ∀ a b, localeCompare a b ≤ 0 ∨ localeCompare b a ≤ 0 := by
    intro a b
    by_cases h : localeCompare a b ≤ 0
    · exact Or.inl h
    · exact Or.inr ((hanti b a).mpr (by omega))
  haveI : IsTotal Paper (fun x y => localeCompare y.id x.id ≤ 0) :=
    ⟨fun x y => htotal y.id x.id⟩
  haveI : IsTrans Paper (fun x y => localeCompare y.id x.id ≤ 0) :=
    ⟨fun x y z hxy hyz => htrans z.id y.id x.id hyz hxy⟩
  refine ⟨?_, (sort (fun a b => localeCompare b.id a.id) papers).drop 5, ?_, ?_, ?_⟩
  · simp [recentPapers, sort, List.length_take, List.length_insertionSort]
  · simp only [recentPapers, List.take_append_drop, sort]
    exact List.perm_insertionSort _ papers
  · simp only [recentPapers, List.take_append_drop, sort]
    have hs := List.sorted_insertionSort (fun x y : Paper => localeCompare y.id x.id ≤ 0) papers
    exact List.Pairwise.imp (fun h => (hanti _ _).mp h) hs
  · intro k
    simp only [recentPapers, List.take_append_drop, sort]
    refine filter_insertionSort_tied _ _ ?_ papers
    intro x y hx hy
    simp only [decide_eq_true_eq] at hx hy
    have hkx : localeCompare k x.id ≤ 0 := (hanti k x.id).mpr (by omega)
    exact htrans y.id k x.id (by omega) hkx

/-- C2's amended statement for comparison by code units, on seven papers with
repeated identifiers: the cut of `slice(0, 5)` falls inside the papers of
identifier `b`, of which the first two added are kept. -/
theorem updateRecentPapersList_spec_witness :
    updateRecentPapersList codeUnitCompare sevenPapers =
      [samplePaper (js "d") (js "seventh"), samplePaper (js "c") (js "second"),
       samplePaper (js "c") (js "fifth"), samplePaper (js "b") (js "first"),
       samplePaper (js "b") (js "third")] ∧
    (updateRecentPapersList codeUnitCompare sevenPapers).length = min 5 sevenPapers.length ∧
    ∃ rest : List Paper,
      (updateRecentPapersList codeUnitCompare sevenPapers ++ rest).Perm sevenPapers ∧
      (updateRecentPapersList codeUnitCompare sevenPapers ++ rest).Pairwise
        (fun a b => 0 ≤ codeUnitCompare a.id b.id) ∧
      ∀ k : JSString,
        (updateRecentPapersList codeUnitCompare sevenPapers ++ rest).filter
            (fun p => decide (codeUnitCompare p.id k = 0)) =
          sevenPapers.filter (fun p => decide (codeUnitCompare p.id k = 0)) :=
  ⟨by decide,
    updateRecentPapersList_spec codeUnitCompare codeUnitCompare_antisymm codeUnitCompare_trans
      sevenPapers⟩

/-- C2 as stated fails: the order is that of `localeCompare`, a collation, not
the lexicographic order of the identifiers.  Of six papers with the
identifiers `a`, `b`, `c`, `d`, `e` and `F` the list shows `F`, `e`, `d`, `c`,
`b`: it begins with `F`, the lexicographically smallest of the six (`F` comes
before `a`, as before every lower-case letter), and leaves out `a`, which is
among the five lexicographically largest, these being `e`, `d`, `c`, `b`, `a`.
Likewise the identifiers `a`, `B`, `b` are shown as `B`, `b`, `a`. -/
theorem recentPapers_collation_not_lexicographic :
    (updateRecentPapersList collationCompare
      [samplePaper (js "a") (js "first"), samplePaper (js "B") (js "second"),
       samplePaper (js "b") (js "third")]).map Paper.id = [js "B", js "b", js "a"] ∧
    (updateRecentPapersList collationCompare sixPapers).map Paper.id =
      [js "F", js "e", js "d", js "c", js "b"] ∧
    (∀ p ∈ sixPapers, codeUnitCompare (js "F") p.id ≤ 0) ∧
    codeUnitCompare (js "F") (js "a") < 0 ∧
    (updateRecentPapersList codeUnitCompare sixPapers).map Paper.id =
      [js "e", js "d", js "c", js "b", js "a"] := by
  decide

/-! ## C11: the simulated progress -/

theorem progressTick_iterate (v : UploadView) (n : Nat) :
    (progressTick^[n] (beginUpload v)).progress = min (5 * n) 95 ∧
    (progressTick^[n] (beginUpload v)).progressWidth = min (5 * n) 95 ∧
    (progressTick^[n] (beginUpload v)).intervalActive = decide (5 * n ≤ 90) := by
  induction n with
  | zero => simp [beginUpload]
  | succ n ih =>
    obtain ⟨h1, h2, h3⟩ := ih
    rw [Function.iterate_succ_apply']
    by_cases hn : 5 * n ≤ 90
    · have hact : (progressTick^[n] (beginUpload v)).intervalActive = true := by
        rw [h3]; simpa using hn
      simp only [progressTick, hact, if_true, h1]
      have e1 : min (5 * n) 95 + 5 = min (5 * (n + 1)) 95 := by omega
      rw [e1]
      refine ⟨rfl, rfl, ?_⟩
      by_cases hn' : 5 * (n + 1) ≤ 90
      · have : ¬ min (5 * (n + 1)) 95 > 90 := by omega
        simp [this, hn']
      · have : min (5 * (n + 1)) 95 > 90 := by omega
        simp [this, hn']
    · have hact : (progressTick^[n] (beginUpload v)).intervalActive = false := by
        rw [h3]; simpa using hn
      have hn' : ¬ 5 * (n + 1) ≤ 90 := by omega
      simp only [progressTick, hact, h1, h2, hn']
      refine ⟨?_, ?_, by simpa using hact⟩ <;> simp <;> omega

/-- C11 fails on the code: the interval callback of `uploadPaper` tests
`progress > 90` and then writes the value all the same, so the 19th tick
writes 95 to the progress bar, where the claim has a cap of 90.  For every
number `n` of ticks the written value is `min (5 n) 95`; the part of the claim
about 100 holds: after a call that passed the file check the bar is at 100
only when the request has resolved with a success status. -/
theorem progress_written_reaches_95 :
    (progressTick^[19] (beginUpload (idleView (some [pdfFile])))).progressWidth = 95 ∧
    (uploadPaper commentBrowser initialState (idleView (some [pdfFile])) 19
      (.rejected (js "Failed to fetch"))).view.progressWidth = 95 ∧
    (∀ (v : UploadView) (n : Nat),
      (progressTick^[n] (beginUpload v)).progressWidth = min (5 * n) 95) ∧
    (∀ (browser : Browser) (s : State) (v : UploadView) (n : Nat) (outcome : UploadOutcome)
      (file : File),
      validateUpload v.selection = .ok file →
      (uploadPaper browser s v n outcome).view.progressWidth = 100 →
      ∃ body, outcome = .resolved true body) := by
  refine ⟨by decide, by decide, fun v n => (progressTick_iterate v n).2.1, ?_⟩
  intro browser s v n outcome file hv h100
  rw [uploadPaper_of_valid browser s v n outcome file hv] at h100
  have hw := (progressTick_iterate v n).2.1
  cases outcome with
  | rejected message =>
    simp only [uploadResolve, uploadFailed] at h100
    omega
  | resolved ok body =>
    cases ok with
    | true => exact ⟨body, rfl⟩
    | false =>
      simp only [uploadResolve, uploadFailed] at h100
      simp at h100
      omega

/-! ## C13: the replay of `loadConversation` -/

theorem appendMessage_of_some (s : State) (sender text : JSString) (now : Nat) (id : JSString)
    (c : Conversation) (hsome : currentConversation s = some (id, c))
    (hs : sender = js "user" ∨ sender = js "bot") :
    appendMessage s sender text now =
      { currentConversationId := s.currentConversationId
        conversations := s.conversations.set id
          { messages := c.messages ++ [{ sender := sender, text := text, timestamp := now }]
            created := c.created }
        papers := s.papers
        stats :=
          { paperCount := s.stats.paperCount
            conversationCount := s.stats.conversationCount
            questionCount := s.stats.questionCount + (if sender = js "user" then 1 else 0) } } := by
  rw [appendMessage_eq]
  rcases hs with hs | hs
  · simp [hs, countQuestion, pushMessage_of_some _ _ id c hsome]
  · simp [hs, bot_ne_user, pushMessage_of_some _ _ id c hsome]

theorem userCount_cons (m : Message) (ms : List Message) :
    userCount (m :: ms) = (if m.sender = js "user" then 1 else 0) + userCount ms := by
  by_cases h : m.sender = js "user"
  · simp [userCount, List.filter_cons, h]
    omega
  · simp [userCount, List.filter_cons, h]

theorem replayCopies_sender (clock : Nat → Nat) (ms : List Message) :
    ∀ k, (replayCopies clock ms k).map Message.sender = ms.map Message.sender := by
  induction ms with
  | nil => intro k; rfl
  | cons m ms ih => intro k; simp [replayCopies, ih]

theorem replayCopies_text (clock : Nat → Nat) (ms : List Message) :
    ∀ k, (replayCopies clock ms k).map Message.text = ms.map Message.text := by
  induction ms with
  | nil => intro k; rfl
  | cons m ms ih => intro k; simp [replayCopies, ih]

theorem replayCopies_length (clock : Nat → Nat) (ms : List Message) :
    ∀ k, (replayCopies clock ms k).length = ms.length := by
  induction ms with
  | nil => intro k; rfl
  | cons m ms ih => intro k; simp [replayCopies, ih]

/-- The loop of `loadConversation` on the current conversation: with `k`
messages visited and their copies `done` already appended, the remaining
visits append the copies of the remaining messages. -/
theorem loadLoop_current (id : JSString) (clock : Nat → Nat) (m : List Message) (created : Nat)
    (hne : id ≠ []) (hsend : ∀ msg ∈ m, msg.sender = js "user" ∨ msg.sender = js "bot") :
    ∀ (n k : Nat) (s : State) (done : List Message), k + n = m.length →
      s.currentConversationId = some id →
      s.conversations.get id = some { messages := m ++ done, created := created } →
      loadLoop id clock n k s =
        { currentConversationId := s.currentConversationId
          conversations := s.conversations.set id
            { messages := m ++ done ++ replayCopies clock (m.drop k) k, created := created }
          papers := s.papers
          stats :=
            { paperCount := s.stats.paperCount
              conversationCount := s.stats.conversationCount
              questionCount := s.stats.questionCount + (userCount (m.drop k) : Int) } } := by
  intro n
  induction n with
  | zero =>
    intro k s done hk hcur hget
    have hk' : m.length ≤ k := by omega
    simp [loadLoop, List.drop_eq_nil_of_le hk', replayCopies, userCount,
      Store.set_of_get _ _ _ hget]
  | succ n ih =>
    intro k s done hk hcur hget
    have hlt : k < m.length := by omega
    have hread : (s.conversations.get id).bind (fun c => c.messages[k]?) = some m[k] := by
      simp [hget, List.getElem?_append_left hlt, List.getElem?_eq_getElem hlt]
    have hdrop : m.drop k = m[k] :: m.drop (k + 1) := List.drop_eq_getElem_cons hlt
    have hsome := currentConversation_eq_some s id _ hcur hne hget
    have happ := appendMessage_of_some s m[k].sender m[k].text (clock k) id _ hsome
      (hsend _ (List.getElem_mem hlt))
    simp only [loadLoop, hread]
    have hcur' : (appendMessage s m[k].sender m[k].text (clock k)).currentConversationId =
        some id := by
      rw [happ]
      exact hcur
    have hget' : (appendMessage s m[k].sender m[k].text (clock k)).conversations.get id =
        some { messages := m ++ (done ++ [Message.mk m[k].sender m[k].text (clock k)])
               created := created } := by
      rw [happ]
      simp [Store.get_set_self]
    rw [ih (k + 1) (appendMessage s m[k].sender m[k].text (clock k))
      (done ++ [Message.mk m[k].sender m[k].text (clock k)]) (by omega) hcur' hget']
    rw [happ]
    simp only [Store.set_set, hdrop, replayCopies, userCount_cons, List.append_assoc,
      List.singleton_append]
    congr 2
    split <;> push_cast <;> omega

/-- C13: `loadConversation(id)` is a total function, its loop makes as many
visits as the list had messages when it started.  When `id` is the current
conversation and in the store with the message list `m` (of `'user'` and
`'bot'` messages, as every stored message is), the state afterwards differs
from the one before only in that the list of `id` is `m` followed by copies of
the messages of `m`, with their senders and texts in the same order, so that the
length has doubled, and in that `stats.questionCount` has grown by the number
of `'user'` messages in `m`.  When `id` is not in the store, nothing changes. -/
theorem loadConversation_replays (s : State) (id : JSString) (clock : Nat → Nat) :
    (∀ c : Conversation, s.currentConversationId = some id → id ≠ [] →
      s.conversations.get id = some c →
      (∀ msg ∈ c.messages, msg.sender = js "user" ∨ msg.sender = js "bot") →
      loadConversation s id clock =
        { currentConversationId := s.currentConversationId
          conversations := s.conversations.set id
            { messages := c.messages ++ replayCopies clock c.messages 0, created := c.created }
          papers := s.papers
          stats :=
            { paperCount := s.stats.paperCount
              conversationCount := s.stats.conversationCount
              questionCount := s.stats.questionCount + (userCount c.messages : Int) } } ∧
      (loadConversation s id clock).conversations.get id =
        some { messages := c.messages ++ replayCopies clock c.messages 0,
               created := c.created } ∧
      (∀ k, k ≠ id → (loadConversation s id clock).conversations.get k =
        s.conversations.get k) ∧
      (replayCopies clock c.messages 0).map Message.sender = c.messages.map Message.sender ∧
      (replayCopies clock c.messages 0).map Message.text = c.messages.map Message.text ∧
      (c.messages ++ replayCopies clock c.messages 0).length = 2 * c.messages.length ∧
      (loadConversation s id clock).stats.questionCount =
        s.stats.questionCount + (userCount c.messages : Int)) ∧
    (id ∉ s.conversations.keys → loadConversation s id clock = s) := by
  constructor
  · intro c hcur hne hget hsend
    have hload : loadConversation s id clock =
        { currentConversationId := s.currentConversationId
          conversations := s.conversations.set id
            { messages := c.messages ++ replayCopies clock c.messages 0, created := c.created }
          papers := s.papers
          stats :=
            { paperCount := s.stats.paperCount
              conversationCount := s.stats.conversationCount
              questionCount := s.stats.questionCount + (userCount c.messages : Int) } } := by
      have := loadLoop_current id clock c.messages c.created hne hsend c.messages.length 0 s []
        (by omega) hcur (by simpa using hget)
      simpa [loadConversation, hget] using this
    refine ⟨hload, ?_, ?_, replayCopies_sender clock _ 0, replayCopies_text clock _ 0, ?_, ?_⟩
    · rw [hload]
      exact Store.get_set_self _ _ _
    · intro k hk
      rw [hload]
      exact Store.get_set_of_ne _ _ _ _ hk
    · rw [List.length_append, replayCopies_length]
      omega
    · rw [hload]
  · intro h
    simp [loadConversation, (Store.get_eq_none_iff _ _).mpr h]

/-- C13 on the conversation of `createAndAsk`, which holds the greeting and
one question: after the replay it holds four messages and the counter is 2. -/
theorem loadConversation_replays_witness :
    (loadConversation (run commentBrowser initialState createAndAsk) (generateUUID zeroDraws)
        (fun k => 2 + k)).conversations.get (generateUUID zeroDraws) =
      some { messages := [{ sender := js "bot", text := greeting, timestamp := 0 },
                          { sender := js "user", text := js "q", timestamp := 1 },
                          { sender := js "bot", text := greeting, timestamp := 2 },
                          { sender := js "user", text := js "q", timestamp := 3 }]
             created := 0 } ∧
    (loadConversation (run commentBrowser initialState createAndAsk) (generateUUID zeroDraws)
        (fun k => 2 + k)).stats.questionCount = 1 + 1 ∧
    loadConversation (run commentBrowser initialState createAndAsk) (generateUUID oneDraws)
        (fun k => 2 + k) =
      run commentBrowser initialState createAndAsk :=
  have h := (loadConversation_replays (run commentBrowser initialState createAndAsk)
    (generateUUID zeroDraws) (fun k => 2 + k)).1
    { messages := [{ sender := js "bot", text := greeting, timestamp := 0 },
                   { sender := js "user", text := js "q", timestamp := 1 }]
      created := 0 }
    (by decide) (by decide) (by decide) (by decide)
  ⟨h.2.1, h.2.2.2.2.2.2,
    (loadConversation_replays (run commentBrowser initialState createAndAsk)
      (generateUUID oneDraws) (fun k => 2 + k)).2 (by decide)⟩

/-! ## Stored senders and keys -/

theorem Store.mem_set (st : Store) (id : JSString) (c : Conversation)
    (e : JSString × Conversation) (h : e ∈ st.set id c) : e = (id, c) ∨ e ∈ st := by
  induction st with
  | nil => simpa [Store.set] using h
  | cons e' rest ih =>
    obtain ⟨k, v⟩ := e'
    by_cases hk : k = id
    · simp only [Store.set, hk, if_true, List.mem_cons] at h
      rcases h with h | h
      · exact Or.inl h
      · exact Or.inr (List.mem_cons_of_mem _ h)
    · simp only [Store.set, hk, if_false, List.mem_cons] at h
      rcases h with h | h
      · exact Or.inr (h ▸ List.mem_cons_self _ _)
      · rcases ih h with h' | h'
        · exact Or.inl h'
        · exact Or.inr (List.mem_cons_of_mem _ h')

theorem wellFormed_set (st : Store) (id : JSString) (c : Conversation) (h : wellFormed st)
    (hid : id ≠ []) (hc : ∀ m ∈ c.messages, m.sender = js "user" ∨ m.sender = js "bot") :
    wellFormed (st.set id c) := by
  intro e he
  rcases Store.mem_set st id c e he with rfl | he'
  · exact ⟨hid, hc⟩
  · exact h e he'

theorem wellFormed_delete (st : Store) (id : JSString) (h : wellFormed st) :
    wellFormed (st.delete id) := by
  intro e he
  exact h e (List.mem_of_mem_filter he)

theorem wellFormed_pushMessage (s : State) (m : Message) (h : wellFormed s.conversations)
    (hm : m.sender = js "user" ∨ m.sender = js "bot") :
    wellFormed (pushMessage s m).conversations := by
  cases hc : currentConversation s with
  | none => rw [pushMessage_of_none s m hc]; exact h
  | some e =>
    obtain ⟨id, c⟩ := e
    rw [pushMessage_of_some s m id c hc]
    obtain ⟨_, hne, hget⟩ := (currentConversation_some_iff s id c).mp hc
    refine wellFormed_set _ _ _ h hne ?_
    intro m' hm'
    simp only [List.mem_append, List.mem_singleton] at hm'
    rcases hm' with hm' | rfl
    · exact (h _ (Store.mem_of_get _ _ _ hget)).2 m' hm'
    · exact hm

theorem wellFormed_appendMessage (s : State) (sender text : JSString) (now : Nat)
    (h : wellFormed s.conversations) :
    wellFormed (appendMessage s sender text now).conversations := by
  rw [appendMessage_eq]
  by_cases hs : sender = js "user"
  · simp only [hs, if_true, countQuestion]
    exact wellFormed_pushMessage s _ h (Or.inl rfl)
  · simp only [hs, if_false]
    exact wellFormed_pushMessage s _ h (Or.inr rfl)

theorem wellFormed_createNewConversation (browser : Browser) (s : State) (rnd : Nat → Draw)
    (created greeted : Nat) (h : wellFormed s.conversations) :
    wellFormed (createNewConversation browser s rnd created greeted).state.conversations := by
  obtain ⟨msgs, hmsgs, hst⟩ := createNewConversation_state browser s rnd created greeted
  rw [hst]
  refine wellFormed_set _ _ _ h (generateUUID_ne_nil rnd) ?_
  intro m hm
  rcases hmsgs with rfl | rfl
  · cases hm
  · simp only [List.mem_singleton] at hm
    subst hm
    exact Or.inr rfl

theorem wellFormed_loadConversation (s : State) (id : JSString) (clock : Nat → Nat)
    (h : wellFormed s.conversations) : wellFormed (loadConversation s id clock).conversations :=
  loadConversation_preserves (fun s => wellFormed s.conversations)
    (fun s sender text now hs => wellFormed_appendMessage s sender text now hs) s id clock h

theorem wellFormed_deleteConversation (browser : Browser) (s : State) (id : JSString)
    (rnd : Nat → Draw) (created greeted : Nat) (h : wellFormed s.conversations) :
    wellFormed (deleteConversation browser s id rnd created greeted).state.conversations := by
  have h1 := wellFormed_delete s.conversations id h
  have h2 := wellFormed_createNewConversation browser
    { s with conversations := s.conversations.delete id } rnd created greeted h1
  rcases deleteConversation_cases browser s id rnd created greeted with
    hd | ⟨_, _, hd⟩ | ⟨_, _, hd⟩ | ⟨_, hd⟩
  · rw [hd]; exact h1
  · rw [hd]; exact h2
  · rw [hd]; exact h2
  · rw [hd]; exact h1

/-- In every state that the four store-mutating operations reach, no key is
empty and every stored message has the sender `'user'` or `'bot'`. -/
theorem wellFormed_of_reachable (browser : Browser) (s : State)
    (h : Reachable browser (fun _ _ => True) s) : wellFormed s.conversations := by
  induction h with
  | init => intro e he; cases he
  | next op _ _ ih =>
    cases op with
    | create rnd created greeted =>
      exact wellFormed_createNewConversation browser _ rnd created greeted ih
    | append sender text now => exact wellFormed_appendMessage _ sender text now ih
    | load id clock => exact wellFormed_loadConversation _ id clock ih
    | delete id rnd created greeted =>
      exact wellFormed_deleteConversation browser _ id rnd created greeted ih

theorem loadLoopOnPage_state (id : JSString) (clock : Nat → Nat) :
    ∀ (n k : Nat) (p : Page), (loadLoopOnPage id clock n k p).state = loadLoop id clock n k p.state := by
  intro n
  induction n with
  | zero => intro k p; rfl
  | succ n ih =>
    intro k p
    simp only [loadLoopOnPage, loadLoop]
    split <;> simp [ih, appendMessageOnPage]

theorem loadConversationOnPage_state (p : Page) (id : JSString) (clock : Nat → Nat) :
    (loadConversationOnPage p id clock).state = loadConversation p.state id clock := by
  simp only [loadConversationOnPage, loadConversation]
  split <;> simp [*, loadLoopOnPage_state]

theorem wellFormed_showChat (browser : Browser) (s : State) (rnd : Nat → Draw)
    (created greeted : Nat) (h : wellFormed s.conversations) :
    wellFormed (showChat browser s rnd created greeted).state.conversations := by
  unfold showChat
  split
  · exact wellFormed_createNewConversation browser s rnd created greeted h
  · split
    · exact wellFormed_createNewConversation browser s rnd created greeted h
    · exact h

/-- In every page that the events of the page reach, no key of the store is
empty and every stored message has the sender `'user'` or `'bot'`. -/
theorem wellFormed_of_pageReachable (browser : Browser) (p : Page)
    (h : PageReachable browser p) : wellFormed p.state.conversations := by
  induction h with
  | init => intro e he; cases he
  | @next p0 op _ _ ih =>
    cases op with
    | showChat rnd created greeted => exact wellFormed_showChat browser _ rnd created greeted ih
    | newConversation rnd created greeted =>
      exact wellFormed_createNewConversation browser _ rnd created greeted ih
    | ask chatInput now =>
      simp only [pageStep]
      split
      · exact ih
      · exact wellFormed_appendMessage _ _ _ now ih
    | answer text now => exact wellFormed_appendMessage _ _ text now ih
    | openConversation id clock =>
      simp only [pageStep, loadConversationOnPage_state]
      exact wellFormed_loadConversation _ id clock ih
    | openRecentQuestion q rnd created greeted clock =>
      have hshow := wellFormed_showChat browser
        { p0.state with currentConversationId := some q.conversationId } rnd created greeted ih
      simp only [pageStep, openRecentQuestion]
      split
      · exact hshow
      · simp only [loadConversationOnPage_state]
        exact wellFormed_loadConversation _ _ clock hshow
    | delete id rnd created greeted =>
      exact wellFormed_deleteConversation browser _ id rnd created greeted ih

/-! ## C12: `showChat` -/

/-- When the current identifier is `null`, or names a conversation of the
store, a current conversation exists after `showChat`. -/
theorem showChat_current_exists (browser : Browser) (s : State) (rnd : Nat → Draw)
    (created greeted : Nat)
    (h : ∀ id, s.currentConversationId = some id → id ≠ [] ∧ id ∈ s.conversations.keys) :
    (currentConversation (showChat browser s rnd created greeted).state).isSome := by
  unfold showChat
  cases hc : s.currentConversationId with
  | none => exact createNewConversation_isSome browser s rnd created greeted
  | some id =>
    obtain ⟨hne, hmem⟩ := h id hc
    simp only [hne, if_false]
    cases hg : s.conversations.get id with
    | none => exact absurd hmem ((Store.get_eq_none_iff _ _).mp hg)
    | some c => simp [currentConversation_eq_some s id c hc hne hg]

/-- C12 fails on the code.  The chat is opened, a question is asked, and the
conversation is deleted: the delete handler does not rebuild the
recent-questions list, which still offers the question.  A click on it makes
the deleted identifier current; `showChat`, which tests the identifier for
`null` only, creates nothing and returns the state as it found it, with a
current identifier that is not a key of the store; the handler ends in that
state, no current conversation exists there, and a later `showChat` leaves it
so. -/
theorem showChat_keeps_deleted_identifier :
    PageReachable commentBrowser (pageRun commentBrowser initialPage askAndDeleteOnPage) ∧
    offered (pageRun commentBrowser initialPage askAndDeleteOnPage)
      (.openRecentQuestion staleQuestion oneDraws 3 3 (fun k => 4 + k)) ∧
    generateUUID zeroDraws ∉
      (pageRun commentBrowser initialPage askAndDeleteOnPage).state.conversations.keys ∧
    showChat commentBrowser
        { (pageRun commentBrowser initialPage askAndDeleteOnPage).state with
          currentConversationId := some staleQuestion.conversationId } oneDraws 3 3 =
      { state :=
          { (pageRun commentBrowser initialPage askAndDeleteOnPage).state with
            currentConversationId := some staleQuestion.conversationId }
        threw := false } ∧
    stalePage.state.currentConversationId = some (generateUUID zeroDraws) ∧
    generateUUID zeroDraws ∉ stalePage.state.conversations.keys ∧
    currentConversation stalePage.state = none ∧
    showChat commentBrowser stalePage.state oneDraws 5 5 =
      { state := stalePage.state, threw := false } := by
  refine ⟨?_, by decide, by decide, by decide, by decide, by decide, by decide, by decide⟩
  show PageReachable commentBrowser
    (pageStep commentBrowser (pageStep commentBrowser (pageStep commentBrowser initialPage
      (.showChat zeroDraws 0 0)) (.ask (js "q") 1))
      (.delete (generateUUID zeroDraws) oneDraws 2 2))
  exact PageReachable.next _ (PageReachable.next _ (PageReachable.next _ PageReachable.init
    (by decide)) (by decide)) (by decide)

end SciChat
